import Mathlib

/-!
# The chat relay server of `client-server-2`

A shallow embedding of `protocol.h`, `user-list.c`, the server thread
`start_subserver` of `my-server.c`, and of `my-client.c` the frame builders, the
receive loop of `request_all_messages` and `receive_ack`.

Modelling conventions.
* A `char[BUFFER_SIZE]` field or a `char *` is the C string it holds, a list of
  characters; a `char *` may be NULL (`none`).
* `User` and `Message` objects live in two typed heaps, lists of cells indexed by
  address. `malloc` always succeeds and returns the next fresh address, `free`
  turns a cell into `none`. Reading or writing through NULL or through a freed
  pointer is undefined behaviour: the operation has no result (`none`).
* C `int` counters are integers; the lists stay far below `2^31` entries.
* `printf` and `perror` are not modelled.
-/

namespace ChatServer

/-! ## protocol.h -/

def BUFFER_SIZE : Nat := 256
def MESSAGE_TYPE : Int := 2
def EXIT_TYPE : Int := 99
def ACK_TYPE : Int := 200
def REGISTRATION_TYPE : Int := 1
def REQUEST_ALL_MESSAGES_TYPE : Int := 3

/-- A C string: the characters before the terminating NUL. -/
abbrev CStr := List Char

/-- An address in one of the typed heaps; a C pointer is an `Option Ptr`. -/
abbrev Ptr := Nat

/-- The frame a client sends: `type`, `length` and the string held by `message[BUFFER_SIZE]`. -/
structure c2s_send_message where
  type : Int
  length : Int
  message : CStr
deriving DecidableEq, Repr

/-- The frame that carries one sender name and one message text to the client. -/
structure user_message where
  type : Int
  name : CStr
  message : CStr
deriving DecidableEq, Repr

structure c2s_send_exit where
  type : Int
deriving DecidableEq, Repr

structure s2c_send_ok_ack where
  type : Int
deriving DecidableEq, Repr

structure User where
  email : Option CStr
  name : Option CStr
  next : Option Ptr
deriving DecidableEq, Repr

structure UserList where
  first : Option Ptr
  last : Option Ptr
  count : Int
deriving DecidableEq, Repr

structure Message where
  message : Option CStr
  sender : Option Ptr
  next : Option Ptr
deriving DecidableEq, Repr

structure MessageList where
  first : Option Ptr
  last : Option Ptr
  count : Int
deriving DecidableEq, Repr

/-! ## Memory -/

/-- The object stored at address `p`, if `p` is allocated and not freed. -/
def readCell {α : Type} (h : List (Option α)) (p : Ptr) : Option α :=
  match h.get? p with
  | some (some a) => some a
  | _ => none

/-- Store `a` at address `p`. -/
def writeCell {α : Type} (h : List (Option α)) (p : Ptr) (a : α) : List (Option α) :=
  h.set p (some a)

/-- Allocate a fresh cell holding `a`: the new heap and the new address. -/
def allocCell {α : Type} (h : List (Option α)) (a : α) : List (Option α) × Ptr :=
  (h ++ [some a], h.length)

/-- Release the cell at `p`. -/
def freeCell {α : Type} (h : List (Option α)) (p : Ptr) : List (Option α) :=
  h.set p none

/-- The addresses met when following `next` pointers from `p` until NULL, using at
most `fuel` steps; `none` when a pointer on the way is dangling or the fuel runs out. -/
def walk {α : Type} (nxt : α → Option Ptr) (h : List (Option α)) : Nat → Option Ptr → Option (List Ptr)
  | _, none => some []
  | 0, some _ => none
  | fuel + 1, some p =>
    match readCell h p with
    | none => none
    | some a =>
      match walk nxt h fuel (nxt a) with
      | none => none
      | some ps => some (p :: ps)

/-! ## String helpers of libc, on C strings -/

/-- The call `strdup(s)`: a fresh copy of the string. -/
def strdup (s : CStr) : Option CStr := some s

/-- The effect of `strncpy(dst, src, BUFFER_SIZE - 1); dst[BUFFER_SIZE - 1] = 0`: the string left in `dst`. -/
def strncpy (src : CStr) : CStr := src.take (BUFFER_SIZE - 1)

/-- The string `snprintf(dst, BUFFER_SIZE, ...)` leaves in `dst` when the formatted text is `text`. -/
def snprintf (text : CStr) : CStr := text.take (BUFFER_SIZE - 1)

/-! ## user-list.c -/

def initUserList : UserList :=
  { first := none, last := none, count := 0 }

def appendUser (h : List (Option User)) (userList : UserList) (user : Option Ptr) :
    Option (List (Option User) × UserList) :=
  let linked : Option (List (Option User) × UserList) :=
    match userList.first with
    | none => some (h, { userList with first := user, last := user })
    | some _ =>
      match userList.last with
      | none => none
      | some l =>
        match readCell h l with
        | none => none
        | some lu => some (writeCell h l { lu with next := user }, { userList with last := user })
  match linked with
  | none => none
  | some (h1, ul1) =>
    match user with
    | none => none
    | some p =>
      match readCell h1 p with
      | none => none
      | some u => some (writeCell h1 p { u with next := none }, { ul1 with count := ul1.count + 1 })

def createUser (h : List (Option User)) (email name : Option CStr) : List (Option User) × Option Ptr :=
  let r := allocCell h { email := email, name := name, next := none }
  (r.1, some r.2)

/-- The loop of `freeUserList`: `n` iterations starting at `ptr`. -/
def freeUsers (h : List (Option User)) : Nat → Option Ptr → Option (List (Option User))
  | 0, _ => some h
  | _ + 1, none => none
  | n + 1, some p =>
    match readCell h p with
    | none => none
    | some u => freeUsers (freeCell h p) n u.next

def freeUserList (h : List (Option User)) (userList : UserList) : Option (List (Option User) × UserList) :=
  match freeUsers h userList.count.toNat userList.first with
  | none => none
  | some h1 => some (h1, { first := none, last := none, count := 0 })

/-! ## msg-list.c -/

/-- Modelled from the spec: `msg-list.c` is not among the sources (`initMessageList`).
The message log starts as an empty insertion-ordered collection with count 0, as
`initUserList` sets up the user directory. -/
def initMessageList : MessageList :=
  { first := none, last := none, count := 0 }

/-- Modelled from the spec: `msg-list.c` is not among the sources (`createMessage`).
A Message is its content and a non-owning reference to its sending User; it is built
as `createUser` builds a User, a fresh node with `next = NULL`. Posting fails with
InvalidSender when the sender reference does not correspond to a User; the function
receives only the two pointers, so the reference it rejects is the null one, and it
then returns NULL. -/
def createMessage (h : List (Option Message)) (message : Option CStr) (sender : Option Ptr) :
    List (Option Message) × Option Ptr :=
  match sender with
  | none => (h, none)
  | some _ =>
    let r := allocCell h { message := message, sender := sender, next := none }
    (r.1, some r.2)

/-- Modelled from the spec: `msg-list.c` is not among the sources (`appendMessage`).
The message log is append-only and insertion-ordered with a count; the node is linked
behind `last` exactly as `appendUser` links a User into the `USER_LIST` of the same shape. -/
def appendMessage (h : List (Option Message)) (msgList : MessageList) (msg : Option Ptr) :
    Option (List (Option Message) × MessageList) :=
  let linked : Option (List (Option Message) × MessageList) :=
    match msgList.first with
    | none => some (h, { msgList with first := msg, last := msg })
    | some _ =>
      match msgList.last with
      | none => none
      | some l =>
        match readCell h l with
        | none => none
        | some lm => some (writeCell h l { lm with next := msg }, { msgList with last := msg })
  match linked with
  | none => none
  | some (h1, ml1) =>
    match msg with
    | none => none
    | some p =>
      match readCell h1 p with
      | none => none
      | some m => some (writeCell h1 p { m with next := none }, { ml1 with count := ml1.count + 1 })

/-- The loop of `freeMessageList`: `n` iterations starting at `ptr`. -/
def freeMessages (h : List (Option Message)) : Nat → Option Ptr → Option (List (Option Message))
  | 0, _ => some h
  | _ + 1, none => none
  | n + 1, some p =>
    match readCell h p with
    | none => none
    | some m => freeMessages (freeCell h p) n m.next

/-- Modelled from the spec: `msg-list.c` is not among the sources (`freeMessageList`).
It releases the `count` Message nodes and resets the list, as `freeUserList` does for
Users; a Message does not own its sender, so no User is released here. -/
def freeMessageList (h : List (Option Message)) (msgList : MessageList) :
    Option (List (Option Message) × MessageList) :=
  match freeMessages h msgList.count.toNat msgList.first with
  | none => none
  | some h1 => some (h1, { first := none, last := none, count := 0 })

/-! ## Sockets -/

/-- What the server passes to `send`: an acknowledgement or a `user_message`. -/
inductive ServerFrame where
  | ack (a : s2c_send_ok_ack)
  | item (m : user_message)
deriving DecidableEq, Repr

/-- The server side of one client connection: the frames delivered to the client so
far (oldest first), the outcome of the coming `send` calls (`true`: the call returns
-1 and delivers nothing; when the script is used up every call succeeds), and whether
the descriptor was closed. -/
structure Socket where
  sent : List ServerFrame
  sendErr : List Bool
  closed : Bool
deriving DecidableEq, Repr

/-- The call `send(client_socket, &f, sizeof f, 0)`: the socket afterwards and whether the call returned -1. -/
def send (k : Socket) (f : ServerFrame) : Socket × Bool :=
  match k.sendErr with
  | true :: rest => ({ k with sendErr := rest }, true)
  | false :: rest => ({ k with sent := k.sent ++ [f], sendErr := rest }, false)
  | [] => ({ k with sent := k.sent ++ [f] }, false)

def close (k : Socket) : Socket :=
  { k with closed := true }

/-- What `recv(client_socket, &client_message, sizeof client_message, 0)` gives:
-1, 0, or bytes that fill `client_message`. -/
inductive Recv where
  | error
  | closed
  | frame (client_message : c2s_send_message)
deriving DecidableEq, Repr

/-! ## my-server.c -/

/-- The `UserList` and `MessageList` of `main`, which every session points to, and the heaps. -/
structure Server where
  users : List (Option User)
  messages : List (Option Message)
  userList : UserList
  messageList : MessageList
deriving DecidableEq, Repr

/-- One server thread: the fields `user` and `socketFd` of its `Session` record
(`userList` and `messageList` point into `Server`), the local `isRegistered` of
`start_subserver`, and whether the record was released with `free`. -/
structure Session where
  user : Option Ptr
  socketFd : Socket
  isRegistered : Bool
  freed : Bool
deriving DecidableEq, Repr

def ackFrame : ServerFrame :=
  .ack { type := ACK_TYPE }

def send_ack (client_socket : Socket) : Socket :=
  (send client_socket ackFrame).1

/-- The frame built for one stored message: `type`, the sender name and the text. -/
def itemFrame (name message : CStr) : ServerFrame :=
  .item { type := MESSAGE_TYPE, name := strncpy name, message := strncpy message }

/-- The end-of-messages indicator. -/
def endFrame : ServerFrame :=
  .item { type := MESSAGE_TYPE, name := [], message := snprintf "END_OF_MESSAGES".toList }

/-- The inner `while (ptr != NULL)` loop of the history branch. The fuel is the
number of Message cells: a list that does not reach NULL within that many nodes is
cyclic and the loop does not end. -/
def sendMessages (users : List (Option User)) (msgs : List (Option Message)) :
    Nat → Option Ptr → Socket → Option Socket
  | _, none, k => some k
  | 0, some _, _ => none
  | fuel + 1, some p, k =>
    match readCell msgs p with
    | none => none
    | some m =>
      match m.sender, m.message with
      | some sp, some text =>
        match readCell users sp with
        | none => none
        | some u =>
          match u.name with
          | none => none
          | some nm =>
            let r := send k (itemFrame nm text)
            if r.2 then some r.1 else sendMessages users msgs fuel m.next r.1
      | _, _ => some k

/-- Whether the loop of `start_subserver` goes round again or is left. -/
inductive Ctl where
  | continue
  | break
deriving DecidableEq, Repr

/-- One iteration of the `while (1)` loop of `start_subserver`, given what `recv` returned. -/
def loopBody (s : Server) (c : Session) : Recv → Option (Server × Session × Ctl)
  | .error => some (s, c, .break)
  | .closed => some (s, c, .break)
  | .frame client_message =>
    if client_message.type = REGISTRATION_TYPE then
      let email := strdup client_message.message
      let name := strdup client_message.message
      let cu := createUser s.users email name
      match appendUser cu.1 s.userList cu.2 with
      | none => none
      | some (h1, ul1) =>
        some ({ s with users := h1, userList := ul1 },
              { c with user := cu.2, socketFd := send_ack c.socketFd, isRegistered := true },
              .continue)
    else if !c.isRegistered then
      some (s, c, .continue)
    else if client_message.type = MESSAGE_TYPE then
      let msgString := strdup client_message.message
      let cm := createMessage s.messages msgString c.user
      match cm.2 with
      | none => some ({ s with messages := cm.1 }, c, .break)
      | some msg =>
        match appendMessage cm.1 s.messageList (some msg) with
        | none => none
        | some (h1, ml1) =>
          some ({ s with messages := h1, messageList := ml1 },
                { c with socketFd := send_ack c.socketFd },
                .continue)
    else if client_message.type = EXIT_TYPE then
      some (s, c, .break)
    else if client_message.type = REQUEST_ALL_MESSAGES_TYPE then
      match sendMessages s.users s.messages s.messages.length s.messageList.first c.socketFd with
      | none => none
      | some k1 =>
        let k2 := (send k1 endFrame).1
        some (s, { c with socketFd := send_ack k2 }, .continue)
    else
      some (s, c, .continue)

def freeSession (s : Server) (session : Session) : Option (Server × Session) :=
  match freeUserList s.users s.userList with
  | none => none
  | some (h1, ul1) =>
    match freeMessageList s.messages s.messageList with
    | none => none
    | some (m1, ml1) =>
      some ({ users := h1, messages := m1, userList := ul1, messageList := ml1 },
            { session with freed := true })

/-- The code of `start_subserver` behind its loop: `close(client_socket)`, then `freeSession(session)`. -/
def cleanup (s : Server) (c : Session) : Option (Server × Session) :=
  freeSession s { c with socketFd := close c.socketFd }

/-- The thread function, run on the results of its successive `recv` calls. When they
are used up before the loop is left, the thread is waiting in `recv` and its state
so far is returned. -/
def start_subserver (s : Server) (c : Session) : List Recv → Option (Server × Session)
  | [] => some (s, c)
  | r :: rest =>
    match loopBody s c r with
    | none => none
    | some (s1, c1, .continue) => start_subserver s1 c1 rest
    | some (s1, c1, .break) => cleanup s1 c1

/-- The states of the session state machine. -/
inductive SessionState where
  | UNREGISTERED
  | REGISTERED
  | TERMINATED
deriving DecidableEq, Repr

def Session.state (c : Session) : SessionState :=
  if c.socketFd.closed then .TERMINATED
  else if c.isRegistered then .REGISTERED
  else .UNREGISTERED

/-- The process: the shared lists and one thread per accepted connection. -/
structure World where
  server : Server
  sessions : List Session
deriving DecidableEq, Repr

/-- The state of `main` before its accept loop: both lists initialised, no thread. -/
def main_start : World :=
  { server := { users := [], messages := [], userList := initUserList, messageList := initMessageList },
    sessions := [] }

/-- The `Session` that `main` builds for an accepted connection. -/
def newSession (sendErr : List Bool) : Session :=
  { user := none, socketFd := { sent := [], sendErr := sendErr, closed := false },
    isRegistered := false, freed := false }

/-- What can happen next in the process: `main` accepts a connection and starts its
thread, or the thread of session `i` gets a result from `recv` and runs until it
waits in `recv` again or exits. -/
inductive Event where
  | accept (sendErr : List Bool)
  | recv (i : Nat) (r : Recv)
deriving DecidableEq, Repr

def World.step (w : World) : Event → Option World
  | .accept sendErr => some { w with sessions := w.sessions ++ [newSession sendErr] }
  | .recv i r =>
    match w.sessions.get? i with
    | none => none
    | some c =>
      if c.socketFd.closed then none
      else
        match start_subserver w.server c [r] with
        | none => none
        | some (s1, c1) => some { server := s1, sessions := w.sessions.set i c1 }

def World.run (w : World) : List Event → Option World
  | [] => some w
  | e :: es =>
    match w.step e with
    | none => none
    | some w1 => w1.run es

/-- The worlds the process can be in. -/
def Reachable (w : World) : Prop :=
  ∃ es : List Event, main_start.run es = some w

/-! ## my-client.c: the frames the client builds -/

def send_registration (email name : CStr) : c2s_send_message :=
  let text := snprintf (email ++ [' '] ++ name)
  { type := REGISTRATION_TYPE, length := text.length + 1, message := text }

def send_messege (message : CStr) : c2s_send_message :=
  { type := MESSAGE_TYPE, length := message.length + 1, message := message.take BUFFER_SIZE }

/-- The request frame of `request_all_messages`. -/
def request_frame : c2s_send_message :=
  let text := snprintf "REQUEST_ALL_MESSAGES".toList
  { type := REQUEST_ALL_MESSAGES_TYPE, length := text.length + 1, message := text }

def send_exit_message : c2s_send_exit :=
  { type := EXIT_TYPE }

/-- The server reads a `c2s_send_exit` into its `c2s_send_message` buffer: only `type`
is overwritten; `length` and `message` keep what the buffer held. -/
def recvExit (e : c2s_send_exit) (length : Int) (message : CStr) : c2s_send_message :=
  { type := e.type, length := length, message := message }

/-! ## Well-formed lists -/

/-- The User nodes reachable from `first`, in list order; `none` when the chain of
`next` pointers runs into a freed cell or never reaches NULL. -/
def UserList.nodes (h : List (Option User)) (userList : UserList) : Option (List Ptr) :=
  walk User.next h h.length userList.first

/-- A well-formed user directory: the chain from `first` reaches NULL, `count` is the
number of its nodes and `last` is its final node (NULL for the empty list). -/
def UserList.WellFormed (h : List (Option User)) (userList : UserList) : Prop :=
  match userList.nodes h with
  | none => False
  | some L => (L.length : Int) = userList.count ∧ L.getLast? = userList.last

instance (h : List (Option User)) (userList : UserList) : Decidable (userList.WellFormed h) := by
  unfold UserList.WellFormed
  split <;> infer_instance

/-- The (email, name) pairs of the directory, first to last. -/
def UserList.identities (h : List (Option User)) (userList : UserList) :
    Option (List (Option CStr × Option CStr)) :=
  (userList.nodes h).map fun L => L.filterMap fun q => (readCell h q).map fun u => (u.email, u.name)

def MessageList.nodes (h : List (Option Message)) (msgList : MessageList) : Option (List Ptr) :=
  walk Message.next h h.length msgList.first

def MessageList.WellFormed (h : List (Option Message)) (msgList : MessageList) : Prop :=
  match msgList.nodes h with
  | none => False
  | some L => (L.length : Int) = msgList.count ∧ L.getLast? = msgList.last

instance (h : List (Option Message)) (msgList : MessageList) : Decidable (msgList.WellFormed h) := by
  unfold MessageList.WellFormed
  split <;> infer_instance

/-- A Message node the history loop can send or stop at: the node exists, and when it
has both a sender and a text, the sender is a live User with a name. -/
def nodeOk (users : List (Option User)) (msgs : List (Option Message)) (q : Nat) : Prop :=
  match readCell msgs q with
  | none => False
  | some m =>
    match m.sender, m.message with
    | some sp, some _ => ((readCell users sp).bind User.name).isSome = true
    | _, _ => True

instance (users : List (Option User)) (msgs : List (Option Message)) (q : Nat) :
    Decidable (nodeOk users msgs q) := by
  unfold nodeOk
  split
  · infer_instance
  · split <;> infer_instance

/-- A well-formed server state: both lists are well-formed and the history loop can
read every node of the message log. -/
def Server.WellFormed (s : Server) : Prop :=
  s.userList.WellFormed s.users ∧ s.messageList.WellFormed s.messages ∧
    match s.messageList.nodes s.messages with
    | none => False
    | some M => ∀ q ∈ M, nodeOk s.users s.messages q

instance (s : Server) : Decidable s.WellFormed := by
  unfold Server.WellFormed
  refine @instDecidableAnd _ _ _ (@instDecidableAnd _ _ _ ?_)
  split <;> infer_instance

/-- The frame the history loop sends for the Message node `q`: none when the node has
no sender or no text, or cannot be read. -/
def historyEntry (users : List (Option User)) (msgs : List (Option Message)) (q : Nat) :
    Option ServerFrame :=
  match readCell msgs q with
  | none => none
  | some m =>
    match m.sender, m.message with
    | some sp, some text =>
      match (readCell users sp).bind User.name with
      | none => none
      | some nm => some (itemFrame nm text)
    | _, _ => none

/-- The frames the history loop sends for the nodes `L` of the message log: one per
node, up to the first node without a sender or without a text. -/
def itemsOf (users : List (Option User)) (msgs : List (Option Message)) : List Nat → List ServerFrame
  | [] => []
  | q :: rest =>
    match historyEntry users msgs q with
    | none => []
    | some fr => fr :: itemsOf users msgs rest

/-- No dangling sender: every Message of the message log has a sender, and that
sender is a node of the user directory. -/
def Server.sendersRegistered (s : Server) : Prop :=
  match s.userList.nodes s.users, s.messageList.nodes s.messages with
  | some U, some M => ∀ q ∈ M, ∃ sp ∈ U, (readCell s.messages q).bind Message.sender = some sp
  | _, _ => True

instance (s : Server) : Decidable s.sendersRegistered := by
  unfold Server.sendersRegistered
  split <;> infer_instance

/-- The name of the User a session is bound to (empty when there is none). -/
def Session.userName (users : List (Option User)) (c : Session) : CStr :=
  match c.user with
  | none => []
  | some p => ((readCell users p).bind User.name).getD []

/-- The server after the sessions of `posts` have each had their frame handled, one
after the other, every one of them going round the loop again. -/
def postAll (s : Server) : List (Session × c2s_send_message) → Option Server
  | [] => some s
  | cf :: rest =>
    match loopBody s cf.1 (.frame cf.2) with
    | some (s1, _, .continue) => postAll s1 rest
    | _ => none

/-! ## Concrete frames and runs -/

def bobRegistration : c2s_send_message :=
  send_registration "bob@example.com".toList "Bob".toList

def helloMessage : c2s_send_message :=
  send_messege "hello".toList

def exitFrame : c2s_send_message :=
  recvExit send_exit_message 0 []

/-- A server in which one client has registered with email `a` and name `b`. -/
def oneUserServer : Server :=
  { users := [some { email := some ['a', ' ', 'b'], name := some ['a', ' ', 'b'], next := none }],
    messages := [],
    userList := { first := some 0, last := some 0, count := 1 },
    messageList := initMessageList }

/-- Two clients connect and register, and the first one posts a message. -/
def twoClients : List Event :=
  [.accept [], .accept [],
   .recv 0 (.frame (send_registration "ann@example.com".toList "Ann".toList)),
   .recv 1 (.frame bobRegistration),
   .recv 0 (.frame helloMessage)]

/-- The server after one client has registered as bob@example.com, Bob and posted hello. -/
def bobServer : Server :=
  { users := [some { email := some "bob@example.com Bob".toList,
                     name := some "bob@example.com Bob".toList, next := none }],
    messages := [some { message := some "hello".toList, sender := some 0, next := none }],
    userList := { first := some 0, last := some 0, count := 1 },
    messageList := { first := some 0, last := some 0, count := 1 } }

/-- The session of that client: registered and bound to the User at address 0. -/
def bobSession : Session :=
  { user := some 0, socketFd := { sent := [ackFrame, ackFrame], sendErr := [], closed := false },
    isRegistered := true, freed := false }

/-- Two MESSAGE frames posted through the registered session of `oneUserServer`. -/
def twoPosts : List (Session × c2s_send_message) :=
  [({ user := some 0, socketFd := { sent := [ackFrame], sendErr := [], closed := false },
      isRegistered := true, freed := false }, helloMessage),
   ({ user := some 0, socketFd := { sent := [ackFrame, ackFrame], sendErr := [], closed := false },
      isRegistered := true, freed := false }, send_messege "END_OF_MESSAGES".toList)]

/-! ## my-client.c: request_all_messages -/

/-- What `recv(server_socket, &received_msg, sizeof(user_message), 0)` gives the
client: -1, 0 once the server has closed the connection, or the next frame the
server sent. -/
inductive ClientRecv where
  | error
  | closed
  | data (f : ServerFrame)
deriving DecidableEq, Repr

/-- The frames the server sent, as the client's successive `recv` calls return them. -/
def wire (sent : List ServerFrame) : List ClientRecv :=
  sent.map .data

/-- The local `messageList` of `request_all_messages` and the client's two heaps. -/
structure ClientLog where
  users : List (Option User)
  messages : List (Option Message)
  messageList : MessageList
deriving DecidableEq, Repr

/-- The client after `initMessageList(&messageList)`, with nothing allocated yet. -/
def clientStart : ClientLog :=
  { users := [], messages := [], messageList := initMessageList }

/-- The `while (1)` loop of `request_all_messages`, run on the results of its
successive `recv` calls: the list it has built when it leaves the loop, and the
results it has not read. There is no result when the input is used up before the
loop is left (the client waits in `recv`), and none when `recv` returns 0, which the
loop does not test for, or when the bytes of an acknowledgement are read as a
`user_message`: the strings of `received_msg` are then not initialised. -/
def request_all_messages_loop (log : ClientLog) : List ClientRecv → Option (ClientLog × List ClientRecv)
  | [] => none
  | .error :: rest => some (log, rest)
  | .closed :: _ => none
  | .data (.ack _) :: _ => none
  | .data (.item received_msg) :: rest =>
    if received_msg.message = "END_OF_MESSAGES".toList then some (log, rest)
    else
      let cu := createUser log.users none (strdup received_msg.name)
      match cu.2 with
      | none => some ({ log with users := cu.1 }, rest)
      | some _ =>
        let cm := createMessage log.messages (strdup received_msg.message) cu.2
        match cm.2 with
        | none => some ({ log with users := cu.1, messages := cm.1 }, rest)
        | some msg =>
          match appendMessage cm.1 log.messageList (some msg) with
          | none => none
          | some (h1, ml1) =>
            request_all_messages_loop { users := cu.1, messages := h1, messageList := ml1 } rest

/-- What `receive_ack` reports. -/
inductive AckResult where
  | error
  | received
  | invalid
deriving DecidableEq, Repr

/-- The call `receive_ack`: it reads the leading `int` of what the server sent next,
the `type` of that frame, and compares it with `ACK_TYPE`. When `recv` returns 0 the
`type` it compares is not initialised and there is no result. -/
def receive_ack : ClientRecv → Option AckResult
  | .error => some .error
  | .closed => none
  | .data (.ack a) => some (if a.type = ACK_TYPE then .received else .invalid)
  | .data (.item m) => some (if m.type = ACK_TYPE then .received else .invalid)

/-- The (sender name, content) pairs of a message list, first to last. -/
def MessageList.pairs (users : List (Option User)) (msgs : List (Option Message))
    (msgList : MessageList) : Option (List (Option CStr × Option CStr)) :=
  (msgList.nodes msgs).map fun L => L.filterMap fun q =>
    (readCell msgs q).map fun m => ((m.sender.bind (readCell users)).bind User.name, m.message)

/-- The sender name and the content of the Message node `q`, when the node, its
sender, the sender's name and the content all exist. -/
def pairAt (users : List (Option User)) (msgs : List (Option Message)) (q : Nat) :
    Option (CStr × CStr) :=
  match readCell msgs q with
  | none => none
  | some m =>
    match m.sender, m.message with
    | some sp, some text =>
      match (readCell users sp).bind User.name with
      | none => none
      | some nm => some (nm, text)
    | _, _ => none

/-- One client on a fresh server: it registers as bob@example.com, Bob, posts the text
END_OF_MESSAGES and then posts hello. -/
def sentinelRun : List Recv :=
  [.frame bobRegistration, .frame (send_messege "END_OF_MESSAGES".toList), .frame helloMessage]

/-- The frames the server sends when that client then asks for the history. -/
def sentinelHistory : List ServerFrame :=
  [.item { type := 2, name := "bob@example.com Bob".toList, message := "END_OF_MESSAGES".toList },
   .item { type := 2, name := "bob@example.com Bob".toList, message := "hello".toList },
   endFrame, ackFrame]

/-- Two clients connect and register, then the first one sends EXIT. -/
def staleSenderRun : List Event :=
  [.accept [], .accept [],
   .recv 0 (.frame (send_registration "ann@example.com".toList "Ann".toList)),
   .recv 1 (.frame bobRegistration),
   .recv 0 (.frame exitFrame)]

/-- The server after that run: both Users released, both lists empty. -/
def staleServer : Server :=
  { users := [none, none], messages := [],
    userList := { first := none, last := none, count := 0 },
    messageList := { first := none, last := none, count := 0 } }

/-- The session of the second client after that run: registered, connection open,
`user` still the address of its released User. -/
def staleSession : Session :=
  { user := some 1, socketFd := { sent := [ackFrame], sendErr := [], closed := false },
    isRegistered := true, freed := false }

/-! ## Memory lemmas -/

section Memory
variable {α : Type}

theorem readCell_lt {h : List (Option α)} {p : Nat} {a : α} (hr : readCell h p = some a) :
    p < h.length := by
  by_contra hlt
  have hnone : h[p]? = none := List.getElem?_eq_none (Nat.le_of_not_lt hlt)
  simp [readCell, List.get?_eq_getElem?, hnone] at hr

theorem readCell_writeCell_same {h : List (Option α)} {p : Nat} (a : α) (hp : p < h.length) :
    readCell (writeCell h p a) p = some a := by
  simp [readCell, writeCell, List.get?_eq_getElem?, List.getElem?_set, hp]

theorem readCell_writeCell_ne {h : List (Option α)} {p q : Nat} (a : α) (hne : q ≠ p) :
    readCell (writeCell h p a) q = readCell h q := by
  have : p ≠ q := fun e => hne e.symm
  simp [readCell, writeCell, List.get?_eq_getElem?, List.getElem?_set, this]

theorem readCell_freeCell_ne {h : List (Option α)} {p q : Nat} (hne : q ≠ p) :
    readCell (freeCell h p) q = readCell h q := by
  have : p ≠ q := fun e => hne e.symm
  simp [readCell, freeCell, List.get?_eq_getElem?, List.getElem?_set, this]

theorem readCell_freeCell_same (h : List (Option α)) (p : Nat) :
    readCell (freeCell h p) p = none := by
  by_cases hp : p < h.length
  · simp [readCell, freeCell, List.get?_eq_getElem?, List.getElem?_set, hp]
  · simp [readCell, freeCell, List.get?_eq_getElem?, List.getElem?_set, hp]

theorem readCell_append_old {h : List (Option α)} {p : Nat} (x : Option α) (hp : p < h.length) :
    readCell (h ++ [x]) p = readCell h p := by
  simp [readCell, List.get?_eq_getElem?, List.getElem?_append_left hp]

theorem readCell_append_new (h : List (Option α)) (a : α) :
    readCell (h ++ [some a]) h.length = some a := by
  simp [readCell, List.get?_eq_getElem?]

theorem length_writeCell (h : List (Option α)) (p : Nat) (a : α) :
    (writeCell h p a).length = h.length := by
  simp [writeCell]

theorem length_freeCell (h : List (Option α)) (p : Nat) :
    (freeCell h p).length = h.length := by
  simp [freeCell]

end Memory

/-! ## Following a chain of nodes -/

section Walk
variable {α : Type} (nxt : α → Option Nat)

theorem walk_null (h : List (Option α)) (n : Nat) : walk nxt h n none = some [] := by
  cases n <;> rfl

theorem walk_null_inv {h : List (Option α)} {n : Nat} {L : List Nat}
    (hw : walk nxt h n none = some L) : L = [] := by
  rw [walk_null] at hw
  exact (Option.some.inj hw).symm

theorem walk_step {h : List (Option α)} {p : Nat} {a : α} (n : Nat)
    (hr : readCell h p = some a) :
    walk nxt h (n + 1) (some p) = (walk nxt h n (nxt a)).map (fun ps => p :: ps) := by
  simp only [walk, hr]
  cases walk nxt h n (nxt a) <;> rfl

theorem walk_some_inv {h : List (Option α)} {n : Nat} {p : Nat} {L : List Nat}
    (hw : walk nxt h n (some p) = some L) :
    ∃ m a ps, n = m + 1 ∧ readCell h p = some a ∧ walk nxt h m (nxt a) = some ps ∧ L = p :: ps := by
  cases n with
  | zero => simp [walk] at hw
  | succ m =>
    cases hr : readCell h p with
    | none => simp [walk, hr] at hw
    | some a =>
      rw [walk_step nxt m hr] at hw
      cases hw2 : walk nxt h m (nxt a) with
      | none => simp [hw2] at hw
      | some ps =>
        simp [hw2] at hw
        exact ⟨m, a, ps, rfl, rfl, hw2, hw.symm⟩

theorem walk_length_le {h : List (Option α)} {n : Nat} {p : Option Nat} {L : List Nat}
    (hw : walk nxt h n p = some L) : L.length ≤ n := by
  induction n generalizing p L with
  | zero =>
    cases p with
    | none => rw [walk_null_inv nxt hw]; simp
    | some q => simp [walk] at hw
  | succ m ih =>
    cases p with
    | none => rw [walk_null_inv nxt hw]; simp
    | some q =>
      obtain ⟨m', a, ps, hm, _, hps, rfl⟩ := walk_some_inv nxt hw
      have hmm : m' = m := by omega
      subst hmm
      have := ih hps
      simp; omega

theorem walk_mono {h : List (Option α)} {n m : Nat} {p : Option Nat} {L : List Nat}
    (hw : walk nxt h n p = some L) (hnm : n ≤ m) : walk nxt h m p = some L := by
  induction n generalizing p L m with
  | zero =>
    cases p with
    | none => rw [walk_null_inv nxt hw, walk_null]
    | some q => simp [walk] at hw
  | succ k ih =>
    cases p with
    | none => rw [walk_null_inv nxt hw, walk_null]
    | some q =>
      obtain ⟨k', a, ps, hk, hr, hps, rfl⟩ := walk_some_inv nxt hw
      have hkk : k' = k := by omega
      subst hkk
      obtain ⟨j, rfl⟩ : ∃ j, m = j + 1 := ⟨m - 1, by omega⟩
      rw [walk_step nxt j hr, ih hps (by omega)]
      rfl

theorem walk_unique {h : List (Option α)} {n m : Nat} {p : Option Nat} {L L' : List Nat}
    (hw : walk nxt h n p = some L) (hw' : walk nxt h m p = some L') : L = L' := by
  have h1 := walk_mono nxt hw (Nat.le_max_left n m)
  have h2 := walk_mono nxt hw' (Nat.le_max_right n m)
  rw [h1] at h2
  exact Option.some.inj h2

theorem walk_exact {h : List (Option α)} {n : Nat} {p : Option Nat} {L : List Nat}
    (hw : walk nxt h n p = some L) : walk nxt h L.length p = some L := by
  induction n generalizing p L with
  | zero =>
    cases p with
    | none => rw [walk_null_inv nxt hw]; exact walk_null nxt _ _
    | some q => simp [walk] at hw
  | succ k ih =>
    cases p with
    | none => rw [walk_null_inv nxt hw]; exact walk_null nxt _ _
    | some q =>
      obtain ⟨k', a, ps, hk, hr, hps, rfl⟩ := walk_some_inv nxt hw
      have hkk : k' = k := by omega
      subst hkk
      simp only [List.length_cons]
      rw [walk_step nxt _ hr, ih hps]
      rfl

theorem walk_mem_lt {h : List (Option α)} {n : Nat} {p : Option Nat} {L : List Nat}
    (hw : walk nxt h n p = some L) : ∀ q : Nat, q ∈ L → q < h.length := by
  induction n generalizing p L with
  | zero =>
    cases p with
    | none => rw [walk_null_inv nxt hw]; simp
    | some q => simp [walk] at hw
  | succ k ih =>
    cases p with
    | none => rw [walk_null_inv nxt hw]; simp
    | some q =>
      obtain ⟨k', a, ps, hk, hr, hps, rfl⟩ := walk_some_inv nxt hw
      have hkk : k' = k := by omega
      subst hkk
      intro x hx
      rcases List.mem_cons.mp hx with rfl | hx
      · exact readCell_lt hr
      · exact ih hps x hx

theorem walk_from_mem {h : List (Option α)} {n : Nat} {p : Option Nat} {L : List Nat}
    (hw : walk nxt h n p = some L) {q : Nat} (hq : q ∈ L) :
    ∃ L', walk nxt h n (some q) = some L' ∧ L'.length ≤ L.length := by
  induction n generalizing p L with
  | zero =>
    cases p with
    | none => rw [walk_null_inv nxt hw] at hq; simp at hq
    | some r => simp [walk] at hw
  | succ k ih =>
    cases p with
    | none => rw [walk_null_inv nxt hw] at hq; simp at hq
    | some r =>
      obtain ⟨k', a, ps, hk, hr, hps, rfl⟩ := walk_some_inv nxt hw
      have hkk : k' = k := by omega
      subst hkk
      rcases List.mem_cons.mp hq with rfl | hq
      · exact ⟨q :: ps, hw, le_refl _⟩
      · obtain ⟨L', hL', hlen⟩ := ih hps hq
        exact ⟨L', walk_mono nxt hL' (Nat.le_succ _), by simp; omega⟩

theorem walk_nodup {h : List (Option α)} {n : Nat} {p : Option Nat} {L : List Nat}
    (hw : walk nxt h n p = some L) : L.Nodup := by
  induction n generalizing p L with
  | zero =>
    cases p with
    | none => rw [walk_null_inv nxt hw]; simp
    | some q => simp [walk] at hw
  | succ k ih =>
    cases p with
    | none => rw [walk_null_inv nxt hw]; simp
    | some q =>
      obtain ⟨k', a, ps, hk, hr, hps, rfl⟩ := walk_some_inv nxt hw
      have hkk : k' = k := by omega
      subst hkk
      refine List.nodup_cons.mpr ⟨?_, ih hps⟩
      intro hmem
      obtain ⟨L', hL', hlen⟩ := walk_from_mem nxt hps hmem
      have := walk_unique nxt hL' hw
      subst this
      simp at hlen

theorem walk_length_le_heap {h : List (Option α)} {n : Nat} {p : Option Nat} {L : List Nat}
    (hw : walk nxt h n p = some L) : L.length ≤ h.length := by
  have hnd := walk_nodup nxt hw
  have hlt := walk_mem_lt nxt hw
  have hsub : L.toFinset ⊆ Finset.range h.length := by
    intro x hx
    exact Finset.mem_range.mpr (hlt x (List.mem_toFinset.mp hx))
  have hcard := Finset.card_le_card hsub
  rw [List.toFinset_card_of_nodup hnd, Finset.card_range] at hcard
  exact hcard

theorem walk_congr {h h' : List (Option α)} {n : Nat} {p : Option Nat} {L : List Nat}
    (hw : walk nxt h n p = some L)
    (hsame : ∀ q ∈ L, (readCell h' q).map nxt = (readCell h q).map nxt) :
    walk nxt h' n p = some L := by
  induction n generalizing p L with
  | zero =>
    cases p with
    | none => rw [walk_null_inv nxt hw]; exact walk_null nxt _ _
    | some q => simp [walk] at hw
  | succ k ih =>
    cases p with
    | none => rw [walk_null_inv nxt hw]; exact walk_null nxt _ _
    | some q =>
      obtain ⟨k', a, ps, hk, hr, hps, rfl⟩ := walk_some_inv nxt hw
      have hkk : k' = k := by omega
      subst hkk
      have hq := hsame q (List.mem_cons_self _ _)
      rw [hr] at hq
      cases hr' : readCell h' q with
      | none => simp [hr'] at hq
      | some a' =>
        simp [hr'] at hq
        rw [walk_step nxt _ hr', hq, ih hps (fun x hx => hsame x (List.mem_cons_of_mem _ hx))]
        rfl

theorem walk_snoc {h h' : List (Option α)} {n : Nat} {p : Option Nat} {L : List Nat}
    {l new : Nat} (hw : walk nxt h n p = some L) (hl : L.getLast? = some l)
    (hsame : ∀ q ∈ L, q ≠ l → (readCell h' q).map nxt = (readCell h q).map nxt)
    (hlast : (readCell h' l).map nxt = some (some new))
    (hnew : (readCell h' new).map nxt = some none) :
    walk nxt h' (n + 1) p = some (L ++ [new]) := by
  induction n generalizing p L with
  | zero =>
    cases p with
    | none => rw [walk_null_inv nxt hw] at hl; simp at hl
    | some q => simp [walk] at hw
  | succ k ih =>
    cases p with
    | none => rw [walk_null_inv nxt hw] at hl; simp at hl
    | some q =>
      have hnd := walk_nodup nxt hw
      obtain ⟨k', a, ps, hk, hr, hps, rfl⟩ := walk_some_inv nxt hw
      have hkk : k' = k := by omega
      subst hkk
      cases ps with
      | nil =>
        simp at hl
        subst hl
        cases hr' : readCell h' q with
        | none => simp [hr'] at hlast
        | some a' =>
          simp [hr'] at hlast
          cases hn' : readCell h' new with
          | none => simp [hn'] at hnew
          | some b =>
            simp [hn'] at hnew
            rw [walk_step nxt _ hr', hlast, walk_step nxt _ hn', hnew, walk_null]
            rfl
      | cons y ys =>
        have hl' : (y :: ys).getLast? = some l := by
          simpa [List.getLast?_cons_cons] using hl
        have hlmem : l ∈ y :: ys := List.mem_of_getLast?_eq_some hl'
        have hql : q ≠ l := by
          intro e
          subst e
          exact (List.nodup_cons.mp hnd).1 hlmem
        have hq := hsame q (List.mem_cons_self _ _) hql
        rw [hr] at hq
        cases hr' : readCell h' q with
        | none => simp [hr'] at hq
        | some a' =>
          simp [hr'] at hq
          rw [walk_step nxt _ hr', hq,
            ih hps hl' (fun x hx hne => hsame x (List.mem_cons_of_mem _ hx) hne)]
          rfl

end Walk

/-! ## Appending to the user directory -/

theorem walk_snoc_fresh {α : Type} (nxt : α → Option Nat) {h h' : List (Option α)}
    {p : Option Nat} {L : List Nat} {l : Nat}
    (hw : walk nxt h h.length p = some L) (hl : L.getLast? = some l)
    (hlen : h'.length = h.length + 1)
    (hsame : ∀ q ∈ L, q ≠ l → (readCell h' q).map nxt = (readCell h q).map nxt)
    (hlast : (readCell h' l).map nxt = some (some h.length))
    (hnew : (readCell h' h.length).map nxt = some none) :
    walk nxt h' h'.length p = some (L ++ [h.length]) := by
  rw [hlen]
  exact walk_snoc nxt hw hl hsame hlast hnew

theorem userList_wellFormed_iff {h : List (Option User)} {ul : UserList} :
    ul.WellFormed h ↔ ∃ L, ul.nodes h = some L ∧ (L.length : Int) = ul.count ∧ L.getLast? = ul.last := by
  unfold UserList.WellFormed
  cases ul.nodes h <;> simp

theorem appendUser_fresh {h : List (Option User)} {ul : UserList} {L : List Nat}
    (u0 : User) (hn : ul.nodes h = some L)
    (hcount : (L.length : Int) = ul.count) (hlast : L.getLast? = ul.last) :
    ∃ h' ul', appendUser (h ++ [some u0]) ul (some h.length) = some (h', ul') ∧
      h'.length = h.length + 1 ∧
      ul'.nodes h' = some (L ++ [h.length]) ∧
      ul'.last = some h.length ∧ ul'.count = ul.count + 1 ∧
      readCell h' h.length = some { u0 with next := none } ∧
      ∀ q ∈ L, ∃ u u', readCell h q = some u ∧ readCell h' q = some u' ∧
        u'.email = u.email ∧ u'.name = u.name := by
  have hnewread : readCell (h ++ [some u0]) h.length = some u0 := readCell_append_new h u0
  unfold UserList.nodes at hn
  cases hf : ul.first with
  | none =>
    rw [hf, walk_null] at hn
    have hL : L = [] := (Option.some.inj hn).symm
    subst hL
    refine ⟨writeCell (h ++ [some u0]) h.length { u0 with next := none },
      { first := some h.length, last := some h.length, count := ul.count + 1 }, ?_, ?_, ?_, rfl, rfl, ?_, ?_⟩
    · simp [appendUser, hf, hnewread]
    · simp [length_writeCell]
    · have hr : readCell (writeCell (h ++ [some u0]) h.length { u0 with next := none }) h.length
          = some { u0 with next := none } :=
        readCell_writeCell_same _ (by simp)
      simp only [UserList.nodes, length_writeCell, List.length_append, List.length_singleton,
        List.nil_append]
      rw [walk_step User.next _ hr, walk_null]
      rfl
    · exact readCell_writeCell_same _ (by simp)
    · intro q hq
      simp at hq
  | some f =>
    rw [hf] at hn
    obtain ⟨m, a, ps, _, _, _, hLeq⟩ := walk_some_inv User.next hn
    have hne : L ≠ [] := by rw [hLeq]; simp
    obtain ⟨l, hl⟩ : ∃ l, L.getLast? = some l := ⟨L.getLast hne, List.getLast?_eq_getLast _ hne⟩
    have hlmem : l ∈ L := List.mem_of_getLast?_eq_some hl
    have hlt : ∀ q : Nat, q ∈ L → q < h.length := walk_mem_lt User.next hn
    have hllt : l < h.length := hlt l hlmem
    obtain ⟨L', hL', _⟩ := walk_from_mem User.next hn hlmem
    obtain ⟨_, lu, _, _, hlu, _, _⟩ := walk_some_inv User.next hL'
    have hlu0 : readCell (h ++ [some u0]) l = some lu := by
      rw [readCell_append_old _ hllt]; exact hlu
    have hlne : h.length ≠ l := by omega
    have hnew1 : readCell (writeCell (h ++ [some u0]) l { lu with next := some h.length }) h.length
        = some u0 := by
      rw [readCell_writeCell_ne _ hlne]; exact hnewread
    refine ⟨writeCell (writeCell (h ++ [some u0]) l { lu with next := some h.length }) h.length
        { u0 with next := none },
      { first := some f, last := some h.length, count := ul.count + 1 }, ?_, ?_, ?_, rfl, rfl, ?_, ?_⟩
    · simp [appendUser, hf, ← hlast, hl, hlu0, hnew1]
    · simp [length_writeCell]
    · have key : ∀ q, q < h.length → q ≠ l →
          readCell (writeCell (writeCell (h ++ [some u0]) l { lu with next := some h.length })
            h.length { u0 with next := none }) q = readCell h q := by
        intro q hq hql
        rw [readCell_writeCell_ne _ (by omega), readCell_writeCell_ne _ hql,
          readCell_append_old _ hq]
      unfold UserList.nodes
      refine walk_snoc_fresh User.next hn hl (by simp [length_writeCell]) ?_ ?_ ?_
      · intro q hq hql
        rw [key q (hlt q hq) hql]
      · rw [readCell_writeCell_ne _ (by omega), readCell_writeCell_same _ (by simp; omega)]
        rfl
      · rw [readCell_writeCell_same _ (by simp [length_writeCell])]
        rfl
    · exact readCell_writeCell_same _ (by simp [length_writeCell])
    · intro q hq
      obtain ⟨Lq, hLq, _⟩ := walk_from_mem User.next hn hq
      obtain ⟨_, uq, _, _, huq, _, _⟩ := walk_some_inv User.next hLq
      by_cases hql : q = l
      · subst hql
        refine ⟨lu, { lu with next := some h.length }, hlu, ?_, rfl, rfl⟩
        rw [readCell_writeCell_ne _ (by omega), readCell_writeCell_same _ (by simp; omega)]
      · refine ⟨uq, uq, huq, ?_, rfl, rfl⟩
        rw [readCell_writeCell_ne _ (by have := hlt q hq; omega), readCell_writeCell_ne _ hql,
          readCell_append_old _ (hlt q hq)]
        exact huq

/-! ## Releasing the lists -/

theorem freeUsers_chain {h : List (Option User)} {n : Nat} {p : Option Nat} {L : List Nat}
    (hw : walk User.next h n p = some L) :
    ∃ h', freeUsers h L.length p = some h' ∧ h'.length = h.length ∧
      (∀ q : Nat, q ∈ L → readCell h' q = none) ∧
      (∀ q : Nat, q ∉ L → readCell h' q = readCell h q) := by
  induction L generalizing h n p with
  | nil => exact ⟨h, rfl, rfl, by simp, by simp⟩
  | cons x xs ih =>
    cases p with
    | none => have := walk_null_inv User.next hw; simp at this
    | some q =>
      have hnd := walk_nodup User.next hw
      obtain ⟨m, a, ps, _, hr, hps, hL⟩ := walk_some_inv User.next hw
      obtain ⟨rfl, rfl⟩ := List.cons.inj hL
      have hx : x ∉ xs := (List.nodup_cons.mp hnd).1
      have hps' : walk User.next (freeCell h x) m a.next = some xs :=
        walk_congr User.next hps (fun y hy => by
          have hyx : y ≠ x := fun e => hx (by rw [← e]; exact hy)
          rw [readCell_freeCell_ne hyx])
      obtain ⟨h', hf, hlen, hin, hout⟩ := ih hps'
      refine ⟨h', ?_, ?_, ?_, ?_⟩
      · simp only [List.length_cons, freeUsers, hr]
        exact hf
      · rw [hlen, length_freeCell]
      · intro y hy
        rcases List.mem_cons.mp hy with rfl | hy
        · rw [hout y hx, readCell_freeCell_same]
        · exact hin y hy
      · intro y hy
        have hyx : y ≠ x := fun e => hy (e ▸ List.mem_cons_self _ _)
        have hyxs : y ∉ xs := fun e => hy (List.mem_cons_of_mem _ e)
        rw [hout y hyxs, readCell_freeCell_ne hyx]

theorem freeMessages_chain {h : List (Option Message)} {n : Nat} {p : Option Nat} {L : List Nat}
    (hw : walk Message.next h n p = some L) :
    ∃ h', freeMessages h L.length p = some h' ∧ h'.length = h.length ∧
      (∀ q : Nat, q ∈ L → readCell h' q = none) ∧
      (∀ q : Nat, q ∉ L → readCell h' q = readCell h q) := by
  induction L generalizing h n p with
  | nil => exact ⟨h, rfl, rfl, by simp, by simp⟩
  | cons x xs ih =>
    cases p with
    | none => have := walk_null_inv Message.next hw; simp at this
    | some q =>
      have hnd := walk_nodup Message.next hw
      obtain ⟨m, a, ps, _, hr, hps, hL⟩ := walk_some_inv Message.next hw
      obtain ⟨rfl, rfl⟩ := List.cons.inj hL
      have hx : x ∉ xs := (List.nodup_cons.mp hnd).1
      have hps' : walk Message.next (freeCell h x) m a.next = some xs :=
        walk_congr Message.next hps (fun y hy => by
          have hyx : y ≠ x := fun e => hx (by rw [← e]; exact hy)
          rw [readCell_freeCell_ne hyx])
      obtain ⟨h', hf, hlen, hin, hout⟩ := ih hps'
      refine ⟨h', ?_, ?_, ?_, ?_⟩
      · simp only [List.length_cons, freeMessages, hr]
        exact hf
      · rw [hlen, length_freeCell]
      · intro y hy
        rcases List.mem_cons.mp hy with rfl | hy
        · rw [hout y hx, readCell_freeCell_same]
        · exact hin y hy
      · intro y hy
        have hyx : y ≠ x := fun e => hy (e ▸ List.mem_cons_self _ _)
        have hyxs : y ∉ xs := fun e => hy (List.mem_cons_of_mem _ e)
        rw [hout y hyxs, readCell_freeCell_ne hyx]

theorem messageList_wellFormed_iff {h : List (Option Message)} {ml : MessageList} :
    ml.WellFormed h ↔
      ∃ L, ml.nodes h = some L ∧ (L.length : Int) = ml.count ∧ L.getLast? = ml.last := by
  unfold MessageList.WellFormed
  cases ml.nodes h <;> simp

theorem freeUserList_wellFormed {h : List (Option User)} {ul : UserList}
    (hwf : ul.WellFormed h) :
    ∃ h', freeUserList h ul = some (h', initUserList) ∧ h'.length = h.length := by
  obtain ⟨L, hn, hc, _⟩ := userList_wellFormed_iff.mp hwf
  obtain ⟨h', hf, hlen, _, _⟩ := freeUsers_chain hn
  have hcnt : ul.count.toNat = L.length := by omega
  exact ⟨h', by simp [freeUserList, hcnt, hf, initUserList], hlen⟩

theorem freeMessageList_wellFormed {h : List (Option Message)} {ml : MessageList}
    (hwf : ml.WellFormed h) :
    ∃ h', freeMessageList h ml = some (h', initMessageList) ∧ h'.length = h.length := by
  obtain ⟨L, hn, hc, _⟩ := messageList_wellFormed_iff.mp hwf
  obtain ⟨h', hf, hlen, _, _⟩ := freeMessages_chain hn
  have hcnt : ml.count.toNat = L.length := by omega
  exact ⟨h', by simp [freeMessageList, hcnt, hf, initMessageList], hlen⟩

theorem cleanup_wellFormed (s : Server) (c : Session)
    (hu : s.userList.WellFormed s.users) (hm : s.messageList.WellFormed s.messages) :
    ∃ users' msgs', cleanup s c =
      some ({ users := users', messages := msgs', userList := initUserList,
              messageList := initMessageList },
            { c with socketFd := close c.socketFd, freed := true }) := by
  obtain ⟨u', hfu, _⟩ := freeUserList_wellFormed hu
  obtain ⟨m', hfm, _⟩ := freeMessageList_wellFormed hm
  exact ⟨u', m', by simp [cleanup, freeSession, hfu, hfm]⟩

theorem cleanup_result {s s' : Server} {c c' : Session} (h : cleanup s c = some (s', c')) :
    c' = { c with socketFd := close c.socketFd, freed := true } ∧
      s'.userList = initUserList ∧ s'.messageList = initMessageList := by
  unfold cleanup freeSession freeUserList freeMessageList at h
  cases hu : freeUsers s.users s.userList.count.toNat s.userList.first with
  | none => simp [hu] at h
  | some u' =>
    cases hm : freeMessages s.messages s.messageList.count.toNat s.messageList.first with
    | none => simp [hu, hm] at h
    | some m' =>
      simp [hu, hm] at h
      obtain ⟨rfl, rfl⟩ := h
      exact ⟨rfl, rfl, rfl⟩

/-! ## The session state machine -/

theorem state_unregistered {c : Session} (h : c.state = .UNREGISTERED) :
    c.isRegistered = false ∧ c.socketFd.closed = false := by
  unfold Session.state at h
  cases hc : c.socketFd.closed <;> cases hr : c.isRegistered <;> simp [hc, hr] at h ⊢

theorem state_registered {c : Session} (h : c.state = .REGISTERED) :
    c.isRegistered = true ∧ c.socketFd.closed = false := by
  unfold Session.state at h
  cases hc : c.socketFd.closed <;> cases hr : c.isRegistered <;> simp [hc, hr] at h ⊢

theorem identities_snoc {h h' : List (Option User)} {L : List Nat} {u0 : User}
    (hold : ∀ q : Nat, q ∈ L → ∃ u u', readCell h q = some u ∧ readCell h' q = some u' ∧
      u'.email = u.email ∧ u'.name = u.name)
    (hnew : readCell h' h.length = some u0) :
    (L ++ [h.length]).filterMap (fun q => (readCell h' q).map fun u => (u.email, u.name)) =
      L.filterMap (fun q => (readCell h q).map fun u => (u.email, u.name)) ++
        [(u0.email, u0.name)] := by
  rw [List.filterMap_append]
  congr 1
  · apply List.filterMap_congr
    intro q hq
    obtain ⟨u, u', hu, hu', he, hn⟩ := hold q hq
    simp [hu, hu', he, hn]
  · simp [hnew]

/-- C7: in every session state, a REGISTER frame handled on a well-formed user
directory always succeeds and appends exactly one new User behind the existing ones:
the (email, name) entries before it keep their order, the new entry carries the
frame's identity string (whether or not an equal identity is already registered),
`count` grows by exactly 1, the directory stays well-formed, the session is bound to
the new User (the new `last` node) and is registered afterwards; the message log is
not touched. -/
theorem register_appends_one_user (s : Server) (c : Session) (f : c2s_send_message)
    (hwf : s.userList.WellFormed s.users) (ht : f.type = REGISTRATION_TYPE) :
    ∃ s' c' ids,
      loopBody s c (.frame f) = some (s', c', .continue) ∧
      s.userList.identities s.users = some ids ∧
      s'.userList.identities s'.users = some (ids ++ [(some f.message, some f.message)]) ∧
      s'.userList.count = s.userList.count + 1 ∧
      s'.userList.WellFormed s'.users ∧
      c'.user = some s.users.length ∧ c'.user = s'.userList.last ∧
      readCell s.users s.users.length = none ∧
      readCell s'.users s.users.length =
        some { email := some f.message, name := some f.message, next := none } ∧
      c'.isRegistered = true ∧ c'.socketFd.closed = c.socketFd.closed ∧
      (c.socketFd.closed = false → c'.state = .REGISTERED) ∧
      s'.messages = s.messages ∧ s'.messageList = s.messageList := by
  obtain ⟨L, hn, hc, hl⟩ := userList_wellFormed_iff.mp hwf
  obtain ⟨h', ul', happ, hlen, hnodes, hlast, hcount, hnew, hold⟩ :=
    appendUser_fresh (⟨some f.message, some f.message, none⟩ : User) hn hc hl
  refine ⟨{ s with users := h', userList := ul' },
    { c with user := some s.users.length, socketFd := send_ack c.socketFd, isRegistered := true },
    L.filterMap (fun q => (readCell s.users q).map fun u => (u.email, u.name)),
    ?_, ?_, ?_, hcount, ?_, rfl, hlast.symm, ?_, hnew, rfl, ?_, ?_, rfl, rfl⟩
  · simp [loopBody, ht, createUser, allocCell, strdup, happ]
  · simp [UserList.identities, hn]
  · simp only [UserList.identities, hnodes, Option.map_some']
    rw [identities_snoc hold hnew]
  · refine userList_wellFormed_iff.mpr ⟨L ++ [s.users.length], hnodes, ?_, ?_⟩
    · simp only [List.length_append, List.length_singleton, hcount]
      omega
    · simp [hlast]
  · cases hr : readCell s.users s.users.length with
    | none => rfl
    | some a => exact absurd (readCell_lt hr) (lt_irrefl _)
  · simp [send_ack, send]
    cases c.socketFd.sendErr with
    | nil => rfl
    | cons b bs => cases b <;> rfl
  · intro hcl
    have : (send_ack c.socketFd).closed = false := by
      simp [send_ack, send]
      cases c.socketFd.sendErr with
      | nil => exact hcl
      | cons b bs => cases b <;> exact hcl
    simp [Session.state, this]

/-- The witness of C7: a second client registers the identity the first one already
holds. -/
theorem register_appends_one_user_witness :
    oneUserServer.userList.WellFormed oneUserServer.users ∧
    ∃ s' c' ids,
      loopBody oneUserServer (newSession []) (.frame (send_registration ['a'] ['b'])) =
        some (s', c', .continue) ∧
      oneUserServer.userList.identities oneUserServer.users = some ids ∧
      s'.userList.identities s'.users =
        some (ids ++ [(some (send_registration ['a'] ['b']).message,
                       some (send_registration ['a'] ['b']).message)]) ∧
      s'.userList.count = oneUserServer.userList.count + 1 ∧
      s'.userList.WellFormed s'.users ∧
      c'.user = some oneUserServer.users.length ∧ c'.user = s'.userList.last ∧
      readCell oneUserServer.users oneUserServer.users.length = none ∧
      readCell s'.users oneUserServer.users.length =
        some { email := some (send_registration ['a'] ['b']).message,
               name := some (send_registration ['a'] ['b']).message, next := none } ∧
      c'.isRegistered = true ∧ c'.socketFd.closed = (newSession []).socketFd.closed ∧
      ((newSession []).socketFd.closed = false → c'.state = .REGISTERED) ∧
      s'.messages = oneUserServer.messages ∧ s'.messageList = oneUserServer.messageList :=
  ⟨by decide,
   register_appends_one_user oneUserServer (newSession []) (send_registration ['a'] ['b'])
     (by decide) (by decide)⟩

/-- C1, the code at the failing input: two clients have registered and the first has
posted a message, so the directory holds 2 Users and the log 1 Message; once the
second client's EXIT has been handled, `freeSession` has released every User and
every Message and reset both shared lists to empty. -/
theorem exit_wipes_repository :
    (main_start.run twoClients).map (fun w => (w.server.userList, w.server.messageList)) =
        some ({ first := some 0, last := some 1, count := 2 },
              { first := some 0, last := some 0, count := 1 }) ∧
      (main_start.run (twoClients ++ [.recv 1 (.frame exitFrame)])).map (fun w => w.server) =
        some { users := [none, none], messages := [none],
               userList := { first := none, last := none, count := 0 },
               messageList := { first := none, last := none, count := 0 } } := by
  decide

/-- C2 as stated fails: a session that has not registered receives an EXIT frame
(type 99) and stays UNREGISTERED, in the loop, with its connection open. -/
theorem exit_ignored_when_unregistered :
    exitFrame.type = EXIT_TYPE ∧
      (newSession []).state = .UNREGISTERED ∧
      loopBody main_start.server (newSession []) (.frame exitFrame) =
        some (main_start.server, newSession [], .continue) ∧
      (start_subserver main_start.server (newSession []) [.frame exitFrame]).map
          (fun r => (r.2.state, r.2.socketFd.closed)) =
        some (.UNREGISTERED, false) := by
  decide

/-- C2, amended: in the REGISTERED state every frame with discriminant EXIT (99) makes
the handler leave its loop without sending anything; with well-formed lists the
thread then closes the connection and ends, so the next state is TERMINATED. In the
UNREGISTERED state the same frame is ignored: the loop goes on, nothing changes. -/
theorem exit_terminates_registered (s : Server) (c : Session) (f : c2s_send_message)
    (rest : List Recv) (ht : f.type = EXIT_TYPE)
    (hu : s.userList.WellFormed s.users) (hm : s.messageList.WellFormed s.messages) :
    (c.state = .REGISTERED →
      loopBody s c (.frame f) = some (s, c, .break) ∧
      ∃ s' c', start_subserver s c (.frame f :: rest) = some (s', c') ∧
        c'.state = .TERMINATED ∧ c'.socketFd.closed = true ∧ c'.freed = true ∧
        c'.socketFd.sent = c.socketFd.sent) ∧
    (c.state = .UNREGISTERED →
      loopBody s c (.frame f) = some (s, c, .continue) ∧
      start_subserver s c (.frame f :: rest) = start_subserver s c rest) := by
  have e1 : ¬ EXIT_TYPE = REGISTRATION_TYPE := by decide
  have e2 : ¬ EXIT_TYPE = MESSAGE_TYPE := by decide
  constructor
  · intro hst
    obtain ⟨hreg, _⟩ := state_registered hst
    have hb : loopBody s c (.frame f) = some (s, c, .break) := by
      simp [loopBody, ht, e1, e2, hreg]
    refine ⟨hb, ?_⟩
    obtain ⟨u', m', hcl⟩ := cleanup_wellFormed s c hu hm
    refine ⟨{ users := u', messages := m', userList := initUserList,
              messageList := initMessageList },
            { c with socketFd := close c.socketFd, freed := true }, ?_, ?_, ?_, rfl, ?_⟩
    · simp only [start_subserver, hb]
      exact hcl
    · simp [Session.state, close]
    · simp [close]
    · simp [close]
  · intro hst
    obtain ⟨hreg, _⟩ := state_unregistered hst
    have hb : loopBody s c (.frame f) = some (s, c, .continue) := by
      simp [loopBody, ht, e1, hreg]
    exact ⟨hb, by simp only [start_subserver, hb]⟩

/-- The witness of the amended C2: a registered client of a one-user server sends EXIT. -/
theorem exit_terminates_registered_witness :
    exitFrame.type = EXIT_TYPE ∧
    oneUserServer.userList.WellFormed oneUserServer.users ∧
    oneUserServer.messageList.WellFormed oneUserServer.messages ∧
    (({ (newSession []) with user := some 0, isRegistered := true } : Session).state = .REGISTERED →
      loopBody oneUserServer { (newSession []) with user := some 0, isRegistered := true }
          (.frame exitFrame) =
        some (oneUserServer, { (newSession []) with user := some 0, isRegistered := true }, .break) ∧
      ∃ s' c', start_subserver oneUserServer
          { (newSession []) with user := some 0, isRegistered := true } (.frame exitFrame :: []) =
            some (s', c') ∧
        c'.state = .TERMINATED ∧ c'.socketFd.closed = true ∧ c'.freed = true ∧
        c'.socketFd.sent =
          ({ (newSession []) with user := some 0, isRegistered := true } : Session).socketFd.sent) ∧
    (({ (newSession []) with user := some 0, isRegistered := true } : Session).state = .UNREGISTERED →
      loopBody oneUserServer { (newSession []) with user := some 0, isRegistered := true }
          (.frame exitFrame) =
        some (oneUserServer, { (newSession []) with user := some 0, isRegistered := true },
              .continue) ∧
      start_subserver oneUserServer { (newSession []) with user := some 0, isRegistered := true }
          (.frame exitFrame :: []) =
        start_subserver oneUserServer { (newSession []) with user := some 0, isRegistered := true }
          []) :=
  ⟨by decide, by decide, by decide,
   exit_terminates_registered oneUserServer
     { (newSession []) with user := some 0, isRegistered := true } exitFrame []
     (by decide) (by decide) (by decide)⟩

/-- C3: a session in the UNREGISTERED state that receives a MESSAGE or a
REQUEST_HISTORY frame goes round its loop again with the server (heaps, user
directory, message log) and the session (socket, hence no ACK and no other frame
sent; bound user; state) exactly as before. -/
theorem unregistered_frames_ignored (s : Server) (c : Session) (f : c2s_send_message)
    (hst : c.state = .UNREGISTERED)
    (ht : f.type = MESSAGE_TYPE ∨ f.type = REQUEST_ALL_MESSAGES_TYPE) :
    ∃ s' c', loopBody s c (.frame f) = some (s', c', .continue) ∧
      c'.socketFd.sent = c.socketFd.sent ∧
      s'.users = s.users ∧ s'.userList = s.userList ∧
      s'.messages = s.messages ∧ s'.messageList = s.messageList ∧
      c'.state = .UNREGISTERED ∧ s' = s ∧ c' = c := by
  obtain ⟨hreg, _⟩ := state_unregistered hst
  have h1 : f.type ≠ REGISTRATION_TYPE := by
    rcases ht with ht | ht <;> rw [ht] <;> decide
  exact ⟨s, c, by simp [loopBody, h1, hreg], rfl, rfl, rfl, rfl, rfl, hst, rfl, rfl⟩

/-- The witness of C3: a fresh client sends a MESSAGE before registering. -/
theorem unregistered_frames_ignored_witness :
    (newSession []).state = .UNREGISTERED ∧
    (helloMessage.type = MESSAGE_TYPE ∨ helloMessage.type = REQUEST_ALL_MESSAGES_TYPE) ∧
    ∃ s' c', loopBody oneUserServer (newSession []) (.frame helloMessage) =
        some (s', c', .continue) ∧
      c'.socketFd.sent = (newSession []).socketFd.sent ∧
      s'.users = oneUserServer.users ∧ s'.userList = oneUserServer.userList ∧
      s'.messages = oneUserServer.messages ∧ s'.messageList = oneUserServer.messageList ∧
      c'.state = .UNREGISTERED ∧ s' = oneUserServer ∧ c' = newSession [] :=
  ⟨by decide, by decide,
   unregistered_frames_ignored oneUserServer (newSession []) helloMessage (by decide)
     (by decide)⟩

/-- C8: in every session state, a frame whose discriminant is none of REGISTER (1),
MESSAGE (2), REQUEST_HISTORY (3), EXIT (99) does not end the loop and leaves the
server and the session (state, bound user, socket: nothing is sent) unchanged; so
the thread run on this frame followed by any further input is the thread run on
that further input alone. -/
theorem unknown_frame_ignored (s : Server) (c : Session) (f : c2s_send_message)
    (rest : List Recv)
    (h1 : f.type ≠ REGISTRATION_TYPE) (h2 : f.type ≠ MESSAGE_TYPE)
    (h3 : f.type ≠ REQUEST_ALL_MESSAGES_TYPE) (h99 : f.type ≠ EXIT_TYPE) :
    loopBody s c (.frame f) = some (s, c, .continue) ∧
      start_subserver s c (.frame f :: rest) = start_subserver s c rest := by
  have hb : loopBody s c (.frame f) = some (s, c, .continue) := by
    cases hreg : c.isRegistered <;> simp [loopBody, h1, h2, h3, h99, hreg]
  exact ⟨hb, by simp only [start_subserver, hb]⟩

/-- The witness of C8: a registered client sends a frame of type 7, then asks for the
history. -/
theorem unknown_frame_ignored_witness :
    (7 : Int) ≠ REGISTRATION_TYPE ∧ (7 : Int) ≠ MESSAGE_TYPE ∧
    (7 : Int) ≠ REQUEST_ALL_MESSAGES_TYPE ∧ (7 : Int) ≠ EXIT_TYPE ∧
    loopBody oneUserServer { (newSession []) with user := some 0, isRegistered := true }
        (.frame { type := 7, length := 0, message := [] }) =
      some (oneUserServer, { (newSession []) with user := some 0, isRegistered := true },
            .continue) ∧
    start_subserver oneUserServer { (newSession []) with user := some 0, isRegistered := true }
        (.frame { type := 7, length := 0, message := [] } :: [.frame request_frame]) =
      start_subserver oneUserServer { (newSession []) with user := some 0, isRegistered := true }
        [.frame request_frame] :=
  ⟨by decide, by decide, by decide, by decide,
   unknown_frame_ignored oneUserServer
     { (newSession []) with user := some 0, isRegistered := true }
     { type := 7, length := 0, message := [] } [.frame request_frame]
     (by decide) (by decide) (by decide) (by decide)⟩

/-- C6, the code at the failing input: on a fresh server the client registers with
email bob@example.com and name Bob, posts hello, asks for the history and exits. The
three requests are acknowledged and the connection is closed at the end, but the one
history item carries the whole registration string as its name, not Bob. -/
theorem scenario_name_is_whole_identity :
    (start_subserver main_start.server (newSession [])
        [.frame bobRegistration, .frame helloMessage, .frame request_frame,
         .frame exitFrame]).map (fun r => (r.2.socketFd.sent, r.2.socketFd.closed)) =
      some ([ackFrame, ackFrame,
             .item { type := 2, name := "bob@example.com Bob".toList, message := "hello".toList },
             endFrame, ackFrame], true) ∧
      "bob@example.com Bob".toList ≠ "Bob".toList := by
  decide

/-- C9, the code at the failing input: the process reaches a state in which the
message log holds a Message whose sender is not in the user directory. Two clients
register, the first posts and exits (which releases every User), then the second,
still registered, posts a message. -/
theorem dangling_sender_reachable :
    ¬ ∀ w : World, Reachable w → w.server.sendersRegistered := by
  intro h
  have hw := h
    { server := { users := [none, none],
                  messages := [none, some { message := some "hi".toList, sender := some 1,
                                            next := none }],
                  userList := { first := none, last := none, count := 0 },
                  messageList := { first := some 1, last := some 1, count := 1 } },
      sessions := [{ user := some 0, socketFd := { sent := [ackFrame, ackFrame], sendErr := [],
                                                   closed := true },
                     isRegistered := true, freed := true },
                   { user := some 1, socketFd := { sent := [ackFrame, ackFrame], sendErr := [],
                                                   closed := false },
                     isRegistered := true, freed := false }] }
    ⟨twoClients ++ [.recv 0 (.frame exitFrame), .recv 1 (.frame (send_messege "hi".toList))],
      by decide⟩
  revert hw
  decide

/-! ## Appending to the message log -/

theorem appendMessage_fresh {h : List (Option Message)} {ml : MessageList} {L : List Nat}
    (m0 : Message) (hn : ml.nodes h = some L)
    (hcount : (L.length : Int) = ml.count) (hlast : L.getLast? = ml.last) :
    ∃ h' ml', appendMessage (h ++ [some m0]) ml (some h.length) = some (h', ml') ∧
      h'.length = h.length + 1 ∧
      ml'.nodes h' = some (L ++ [h.length]) ∧
      ml'.last = some h.length ∧ ml'.count = ml.count + 1 ∧
      readCell h' h.length = some { m0 with next := none } ∧
      ∀ q : Nat, q ∈ L → ∃ m m', readCell h q = some m ∧ readCell h' q = some m' ∧
        m'.message = m.message ∧ m'.sender = m.sender := by
  have hnewread : readCell (h ++ [some m0]) h.length = some m0 := readCell_append_new h m0
  unfold MessageList.nodes at hn
  cases hf : ml.first with
  | none =>
    rw [hf, walk_null] at hn
    have hL : L = [] := (Option.some.inj hn).symm
    subst hL
    refine ⟨writeCell (h ++ [some m0]) h.length { m0 with next := none },
      { first := some h.length, last := some h.length, count := ml.count + 1 },
      ?_, ?_, ?_, rfl, rfl, ?_, ?_⟩
    · simp [appendMessage, hf, hnewread]
    · simp [length_writeCell]
    · have hr : readCell (writeCell (h ++ [some m0]) h.length { m0 with next := none }) h.length
          = some { m0 with next := none } :=
        readCell_writeCell_same _ (by simp)
      simp only [MessageList.nodes, length_writeCell, List.length_append, List.length_singleton,
        List.nil_append]
      rw [walk_step Message.next _ hr, walk_null]
      rfl
    · exact readCell_writeCell_same _ (by simp)
    · intro q hq
      simp at hq
  | some f =>
    rw [hf] at hn
    obtain ⟨m, a, ps, _, _, _, hLeq⟩ := walk_some_inv Message.next hn
    have hne : L ≠ [] := by rw [hLeq]; simp
    obtain ⟨l, hl⟩ : ∃ l, L.getLast? = some l := ⟨L.getLast hne, List.getLast?_eq_getLast _ hne⟩
    have hlmem : l ∈ L := List.mem_of_getLast?_eq_some hl
    have hlt : ∀ q : Nat, q ∈ L → q < h.length := walk_mem_lt Message.next hn
    have hllt : l < h.length := hlt l hlmem
    obtain ⟨L', hL', _⟩ := walk_from_mem Message.next hn hlmem
    obtain ⟨_, lm, _, _, hlm, _, _⟩ := walk_some_inv Message.next hL'
    have hlm0 : readCell (h ++ [some m0]) l = some lm := by
      rw [readCell_append_old _ hllt]; exact hlm
    have hlne : h.length ≠ l := by omega
    have hnew1 : readCell (writeCell (h ++ [some m0]) l { lm with next := some h.length }) h.length
        = some m0 := by
      rw [readCell_writeCell_ne _ hlne]; exact hnewread
    refine ⟨writeCell (writeCell (h ++ [some m0]) l { lm with next := some h.length }) h.length
        { m0 with next := none },
      { first := some f, last := some h.length, count := ml.count + 1 },
      ?_, ?_, ?_, rfl, rfl, ?_, ?_⟩
    · simp [appendMessage, hf, ← hlast, hl, hlm0, hnew1]
    · simp [length_writeCell]
    · have key : ∀ q : Nat, q < h.length → q ≠ l →
          readCell (writeCell (writeCell (h ++ [some m0]) l { lm with next := some h.length })
            h.length { m0 with next := none }) q = readCell h q := by
        intro q hq hql
        rw [readCell_writeCell_ne _ (by omega), readCell_writeCell_ne _ hql,
          readCell_append_old _ hq]
      unfold MessageList.nodes
      refine walk_snoc_fresh Message.next hn hl (by simp [length_writeCell]) ?_ ?_ ?_
      · intro q hq hql
        rw [key q (hlt q hq) hql]
      · rw [readCell_writeCell_ne _ (by omega), readCell_writeCell_same _ (by simp; omega)]
        rfl
      · rw [readCell_writeCell_same _ (by simp [length_writeCell])]
        rfl
    · exact readCell_writeCell_same _ (by simp [length_writeCell])
    · intro q hq
      obtain ⟨Lq, hLq, _⟩ := walk_from_mem Message.next hn hq
      obtain ⟨_, mq, _, _, hmq, _, _⟩ := walk_some_inv Message.next hLq
      by_cases hql : q = l
      · subst hql
        refine ⟨lm, { lm with next := some h.length }, hlm, ?_, rfl, rfl⟩
        rw [readCell_writeCell_ne _ (by omega), readCell_writeCell_same _ (by simp; omega)]
      · refine ⟨mq, mq, hmq, ?_, rfl, rfl⟩
        rw [readCell_writeCell_ne _ (by have := hlt q hq; omega), readCell_writeCell_ne _ hql,
          readCell_append_old _ (hlt q hq)]
        exact hmq

/-! ## The history loop -/

theorem send_reliable (k : Socket) (f : ServerFrame) (hk : k.sendErr = []) :
    send k f = ({ k with sent := k.sent ++ [f] }, false) := by
  simp [send, hk]

theorem sendMessages_reliable {users : List (Option User)} {msgs : List (Option Message)}
    {n : Nat} {p : Option Nat} {L : List Nat} (k : Socket)
    (hw : walk Message.next msgs n p = some L)
    (hok : ∀ q : Nat, q ∈ L → nodeOk users msgs q) (hk : k.sendErr = []) :
    sendMessages users msgs n p k = some { k with sent := k.sent ++ itemsOf users msgs L } := by
  induction n generalizing p L k with
  | zero =>
    cases p with
    | none => rw [walk_null_inv Message.next hw]; simp [sendMessages, itemsOf]
    | some q => simp [walk] at hw
  | succ j ih =>
    cases p with
    | none => rw [walk_null_inv Message.next hw]; simp [sendMessages, itemsOf]
    | some q =>
      obtain ⟨j', m, ps, hj, hr, hps, rfl⟩ := walk_some_inv Message.next hw
      have hjj : j' = j := by omega
      subst hjj
      have hq := hok q (List.mem_cons_self _ _)
      unfold nodeOk at hq
      rw [hr] at hq
      cases hs : m.sender with
      | none => simp [sendMessages, itemsOf, historyEntry, hr, hs]
      | some sp =>
        cases ht : m.message with
        | none => simp [sendMessages, itemsOf, historyEntry, hr, hs, ht]
        | some text =>
          simp only [hs, ht] at hq
          cases hu : readCell users sp with
          | none => simp [hu] at hq
          | some u =>
            cases hnm : u.name with
            | none => simp [hu, hnm] at hq
            | some nm =>
              have hrec := ih { k with sent := k.sent ++ [itemFrame nm text] } hps
                (fun x hx => hok x (List.mem_cons_of_mem _ hx)) hk
              simp only [sendMessages, hr, hs, ht, hu, hnm, send_reliable k _ hk, itemsOf,
                historyEntry, Option.bind_some]
              simp only [Bool.false_eq_true, if_false]
              rw [hrec]
              simp [hnm]

theorem type_constants :
    ¬ MESSAGE_TYPE = REGISTRATION_TYPE ∧ ¬ EXIT_TYPE = REGISTRATION_TYPE ∧
      ¬ EXIT_TYPE = MESSAGE_TYPE ∧ ¬ REQUEST_ALL_MESSAGES_TYPE = REGISTRATION_TYPE ∧
      ¬ REQUEST_ALL_MESSAGES_TYPE = MESSAGE_TYPE ∧ ¬ REQUEST_ALL_MESSAGES_TYPE = EXIT_TYPE := by
  decide

theorem request_history_reliable (s : Server) (c : Session) (f : c2s_send_message)
    {M : List Nat} (hM : s.messageList.nodes s.messages = some M)
    (hMok : ∀ q : Nat, q ∈ M → nodeOk s.users s.messages q)
    (hreg : c.isRegistered = true) (hsend : c.socketFd.sendErr = [])
    (h3 : f.type = REQUEST_ALL_MESSAGES_TYPE) :
    loopBody s c (.frame f) =
      some (s,
        { c with socketFd := { c.socketFd with
            sent := c.socketFd.sent ++ (itemsOf s.users s.messages M ++ [endFrame, ackFrame]) } },
        .continue) := by
  obtain ⟨e21, e991, e992, e31, e32, e399⟩ := type_constants
  have hsm := sendMessages_reliable c.socketFd hM hMok hsend
  unfold MessageList.nodes at hM
  simp [loopBody, e31, e32, e399, hreg, h3, hsm, send_ack, send, hsend]

theorem strncpy_short {t : CStr} (h : t.length < BUFFER_SIZE) : strncpy t = t := by
  unfold strncpy
  exact List.take_of_length_le (by unfold BUFFER_SIZE at *; omega)

theorem historyEntry_congr {users : List (Option User)} {h h' : List (Option Message)} {q : Nat}
    (hq : ∃ m m', readCell h q = some m ∧ readCell h' q = some m' ∧
      m'.message = m.message ∧ m'.sender = m.sender) :
    historyEntry users h' q = historyEntry users h q := by
  obtain ⟨m, m', hm, hm', he, hs⟩ := hq
  simp [historyEntry, hm, hm', he, hs]

theorem nodeOk_of_historyEntry {users : List (Option User)} {msgs : List (Option Message)}
    {q : Nat} {fr : ServerFrame} (h : historyEntry users msgs q = some fr) :
    nodeOk users msgs q := by
  unfold historyEntry at h
  unfold nodeOk
  cases hr : readCell msgs q with
  | none => simp [hr] at h
  | some m =>
    cases hs : m.sender with
    | none => simp [hs]
    | some sp =>
      cases ht : m.message with
      | none => simp [hs, ht]
      | some text =>
        cases hn : (readCell users sp).bind User.name with
        | none => simp [hr, hs, ht, hn] at h
        | some nm => simp [hs, ht, hn]

theorem itemsOf_of_entries {users : List (Option User)} {msgs : List (Option Message)}
    {L : List Nat} {I : List ServerFrame}
    (h : L.map (historyEntry users msgs) = I.map some) : itemsOf users msgs L = I := by
  induction L generalizing I with
  | nil =>
    cases I with
    | nil => rfl
    | cons x xs => simp at h
  | cons q rest ih =>
    cases I with
    | nil => simp at h
    | cons x xs =>
      simp only [List.map_cons, List.cons.injEq] at h
      simp [itemsOf, h.1, ih h.2]

theorem post_message_step (s : Server) (c : Session) (f : c2s_send_message) {L : List Nat}
    {p : Nat} (hn : s.messageList.nodes s.messages = some L)
    (hcount : (L.length : Int) = s.messageList.count) (hlast : L.getLast? = s.messageList.last)
    (hreg : c.isRegistered = true) (hu : c.user = some p) (ht : f.type = MESSAGE_TYPE) :
    ∃ s1, loopBody s c (.frame f) =
        some (s1, { c with socketFd := send_ack c.socketFd }, .continue) ∧
      s1.users = s.users ∧ s1.userList = s.userList ∧
      s1.messageList.nodes s1.messages = some (L ++ [s.messages.length]) ∧
      s1.messageList.last = some s.messages.length ∧
      s1.messageList.count = s.messageList.count + 1 ∧
      readCell s1.messages s.messages.length =
        some { message := some f.message, sender := some p, next := none } ∧
      ∀ q : Nat, q ∈ L → ∃ m m', readCell s.messages q = some m ∧
        readCell s1.messages q = some m' ∧ m'.message = m.message ∧ m'.sender = m.sender := by
  obtain ⟨e21, -⟩ := type_constants
  obtain ⟨h', ml', happ, _, hnodes, hl', hc', hnew, hold⟩ :=
    appendMessage_fresh (⟨some f.message, some p, none⟩ : Message) hn hcount hlast
  refine ⟨{ s with messages := h', messageList := ml' }, ?_, rfl, rfl, hnodes, hl', hc', hnew,
    hold⟩
  simp [loopBody, e21, hreg, ht, createMessage, hu, allocCell, strdup, happ]

theorem postAll_entries (users0 : List (Option User))
    (posts : List (Session × c2s_send_message))
    (hposts : ∀ cf ∈ posts, cf.1.state = .REGISTERED ∧ cf.2.type = MESSAGE_TYPE ∧
      cf.2.message.length < BUFFER_SIZE ∧
      ∃ p u nm, cf.1.user = some p ∧ readCell users0 p = some u ∧ u.name = some nm ∧
        nm.length < BUFFER_SIZE) :
    ∀ (s : Server) (L : List Nat) (I : List ServerFrame),
      s.users = users0 → s.messageList.nodes s.messages = some L →
      (L.length : Int) = s.messageList.count → L.getLast? = s.messageList.last →
      L.map (historyEntry s.users s.messages) = I.map some →
      ∃ s1 L1, postAll s posts = some s1 ∧ s1.users = users0 ∧ s1.userList = s.userList ∧
        s1.messageList.nodes s1.messages = some L1 ∧
        (L1.length : Int) = s1.messageList.count ∧ L1.getLast? = s1.messageList.last ∧
        s1.messageList.count = s.messageList.count + posts.length ∧
        L1.map (historyEntry s1.users s1.messages) =
          (I ++ posts.map fun cf =>
            ServerFrame.item { type := MESSAGE_TYPE, name := cf.1.userName users0,
                               message := cf.2.message }).map some := by
  induction posts with
  | nil =>
    intro s L I hus hn hc hl hI
    exact ⟨s, L, rfl, hus, rfl, hn, hc, hl, by simp, by simpa using hI⟩
  | cons cf rest ih =>
    intro s L I hus hn hc hl hI
    obtain ⟨hst, hty, hlen, p, u, nm, hcu, hru, hnm, hnl⟩ := hposts cf (List.mem_cons_self _ _)
    obtain ⟨hreg, _⟩ := state_registered hst
    obtain ⟨s1, hstep, hus1, hul1, hn1, hl1, hc1, hnew, hold⟩ :=
      post_message_step s cf.1 cf.2 hn hc hl hreg hcu hty
    have hus1' : s1.users = users0 := by rw [hus1, hus]
    have hentry_new : historyEntry s1.users s1.messages s.messages.length =
        some (ServerFrame.item { type := MESSAGE_TYPE, name := cf.1.userName users0,
                                 message := cf.2.message }) := by
      simp [historyEntry, hnew, hus1', hru, hnm, itemFrame, strncpy_short hnl,
        strncpy_short hlen, Session.userName, hcu]
    have hI1 : (L ++ [s.messages.length]).map (historyEntry s1.users s1.messages) =
        (I ++ [ServerFrame.item { type := MESSAGE_TYPE, name := cf.1.userName users0,
                                  message := cf.2.message }]).map some := by
      rw [List.map_append, List.map_append, ← hI]
      congr 1
      · apply List.map_congr_left
        intro q hq
        rw [hus1, historyEntry_congr (hold q hq)]
      · simp [hentry_new]
    obtain ⟨s2, L2, hpa, hus2, hul2, hn2, hc2, hl2, hcnt2, hI2⟩ :=
      ih (fun x hx => hposts x (List.mem_cons_of_mem _ hx)) s1 (L ++ [s.messages.length])
        (I ++ [ServerFrame.item { type := MESSAGE_TYPE, name := cf.1.userName users0,
                                  message := cf.2.message }])
        hus1' hn1 (by simp [hc1, ← hc]) (by simp [hl1]) hI1
    refine ⟨s2, L2, ?_, hus2, by rw [hul2, hul1], hn2, hc2, hl2, ?_, ?_⟩
    · simp [postAll, hstep, hpa]
    · rw [hcnt2, hc1]
      simp only [List.length_cons, Nat.cast_add, Nat.cast_one]
      omega
    · rw [hI2]
      simp

/-- History completeness where the senders are live: starting from an empty message
log, let N MESSAGE frames, each shorter than the buffer, be handled one after the
other for REGISTERED sessions bound to live, named Users. All N are accepted, the log
then counts N messages, and a REQUEST_HISTORY handled next for a REGISTERED session
whose sends succeed is answered with exactly N history items, the i-th carrying the
name of the i-th sender and the text of the i-th frame, then one end-of-messages
frame, then one ACK; the request leaves the server, and so the message log, as it
was. -/
theorem history_complete (s : Server) (posts : List (Session × c2s_send_message))
    (c : Session) (f : c2s_send_message)
    (hml : s.messageList = initMessageList)
    (hposts : ∀ cf ∈ posts, cf.1.state = .REGISTERED ∧ cf.2.type = MESSAGE_TYPE ∧
      cf.2.message.length < BUFFER_SIZE ∧
      ∃ p u nm, cf.1.user = some p ∧ readCell s.users p = some u ∧ u.name = some nm ∧
        nm.length < BUFFER_SIZE)
    (hc : c.state = .REGISTERED) (hsend : c.socketFd.sendErr = [])
    (hf : f.type = REQUEST_ALL_MESSAGES_TYPE) :
    ∃ s1 c1, postAll s posts = some s1 ∧
      s1.messageList.count = posts.length ∧
      loopBody s1 c (.frame f) = some (s1, c1, .continue) ∧
      c1.socketFd.sent = c.socketFd.sent ++
        (posts.map fun cf =>
          ServerFrame.item { type := MESSAGE_TYPE, name := cf.1.userName s.users,
                             message := cf.2.message }) ++ [endFrame, ackFrame] ∧
      (posts.map fun cf =>
          ServerFrame.item { type := MESSAGE_TYPE, name := cf.1.userName s.users,
                             message := cf.2.message }).length = posts.length := by
  have hn0 : s.messageList.nodes s.messages = some [] := by
    rw [hml]
    simp [MessageList.nodes, initMessageList, walk_null]
  obtain ⟨s1, L1, hpa, hus, _, hn1, hc1, hl1, hcnt, hI⟩ :=
    postAll_entries s.users posts hposts s [] [] rfl hn0 (by simp [hml, initMessageList])
      (by simp [hml, initMessageList]) (by simp)
  have hitems := itemsOf_of_entries hI
  have hok : ∀ q : Nat, q ∈ L1 → nodeOk s1.users s1.messages q := by
    intro q hq
    have hmem : historyEntry s1.users s1.messages q ∈
        L1.map (historyEntry s1.users s1.messages) := List.mem_map_of_mem _ hq
    rw [hI] at hmem
    obtain ⟨fr, _, hfr⟩ := List.mem_map.mp hmem
    exact nodeOk_of_historyEntry hfr.symm
  obtain ⟨hreg, _⟩ := state_registered hc
  have hreq := request_history_reliable s1 c f hn1 hok hreg hsend hf
  refine ⟨s1, _, hpa, ?_, hreq, ?_, by simp⟩
  · rw [hcnt, hml]
    simp [initMessageList]
  · simp [hitems]

/-- History completeness at a concrete input: two messages posted on a one-user
server, then the history. -/
theorem history_complete_witness :
    oneUserServer.messageList = initMessageList ∧
    bobSession.state = .REGISTERED ∧ bobSession.socketFd.sendErr = [] ∧
    request_frame.type = REQUEST_ALL_MESSAGES_TYPE ∧
    ∃ s1 c1, postAll oneUserServer twoPosts = some s1 ∧
      s1.messageList.count = twoPosts.length ∧
      loopBody s1 bobSession (.frame request_frame) = some (s1, c1, .continue) ∧
      c1.socketFd.sent = bobSession.socketFd.sent ++
        (twoPosts.map fun cf =>
          ServerFrame.item { type := MESSAGE_TYPE, name := cf.1.userName oneUserServer.users,
                             message := cf.2.message }) ++ [endFrame, ackFrame] ∧
      (twoPosts.map fun cf =>
          ServerFrame.item { type := MESSAGE_TYPE, name := cf.1.userName oneUserServer.users,
                             message := cf.2.message }).length = twoPosts.length :=
  ⟨by decide, by decide, by decide, by decide,
   history_complete oneUserServer twoPosts bobSession request_frame (by decide)
     (by
       intro cf hcf
       simp only [twoPosts, List.mem_cons, List.mem_singleton, List.not_mem_nil, or_false] at hcf
       rcases hcf with rfl | rfl
       · exact ⟨by decide, by decide, by decide, 0, _, _, rfl, rfl, rfl, by decide⟩
       · exact ⟨by decide, by decide, by decide, 0, _, _, rfl, rfl, rfl, by decide⟩)
     (by decide) (by decide) (by decide)⟩

/-! ## The history round trip -/

/-- C11, the code at the failing input: a client registers, posts the text
END_OF_MESSAGES, posts hello and asks for the history. The log holds both messages and
the server sends both items, the end-of-messages frame and the ACK; the client's loop
leaves at the first item, whose text equals the end marker, with an empty list, and
leaves the second item, the real end frame and the ACK unread, so that the
`receive_ack` that follows reads an item and reports an invalid acknowledgement. -/
theorem history_cut_at_sentinel_text :
    (start_subserver main_start.server (newSession []) sentinelRun).bind (fun r =>
        r.1.messageList.pairs r.1.users r.1.messages) =
      some [(some "bob@example.com Bob".toList, some "END_OF_MESSAGES".toList),
            (some "bob@example.com Bob".toList, some "hello".toList)] ∧
    (start_subserver main_start.server (newSession []) sentinelRun).bind (fun r =>
        (loopBody r.1 r.2 (.frame request_frame)).map fun r1 =>
          r1.2.1.socketFd.sent.drop r.2.socketFd.sent.length) =
      some sentinelHistory ∧
    (request_all_messages_loop clientStart (wire sentinelHistory)).bind (fun r =>
        r.1.messageList.pairs r.1.users r.1.messages) = some [] ∧
    (request_all_messages_loop clientStart (wire sentinelHistory)).map (fun r => r.2) =
      some (wire (sentinelHistory.drop 1)) ∧
    (sentinelHistory.drop 1).head? =
      some (.item { type := 2, name := "bob@example.com Bob".toList,
                    message := "hello".toList }) ∧
    receive_ack (.data (.item { type := 2, name := "bob@example.com Bob".toList,
                                message := "hello".toList })) = some .invalid := by
  decide

theorem pairs_of_pairAt {users : List (Option User)} {msgs : List (Option Message)}
    {ml : MessageList} {L : List Nat} {P : List (CStr × CStr)}
    (hn : ml.nodes msgs = some L) (hP : L.map (pairAt users msgs) = P.map some) :
    ml.pairs users msgs = some (P.map fun p => (some p.1, some p.2)) := by
  simp only [MessageList.pairs, hn, Option.map_some', Option.some.injEq]
  clear hn
  induction L generalizing P with
  | nil =>
    cases P with
    | nil => rfl
    | cons p ps => simp at hP
  | cons q rest ih =>
    cases P with
    | nil => simp at hP
    | cons p ps =>
      simp only [List.map_cons, List.cons.injEq] at hP
      obtain ⟨hq, hrest⟩ := hP
      have hrec := ih hrest
      unfold pairAt at hq
      cases hr : readCell msgs q with
      | none => simp [hr] at hq
      | some m =>
        cases hs : m.sender with
        | none => simp [hr, hs] at hq
        | some sp =>
          cases ht : m.message with
          | none => simp [hr, hs, ht] at hq
          | some text =>
            cases hnm : (readCell users sp).bind User.name with
            | none => simp [hr, hs, ht, hnm] at hq
            | some nm =>
              simp [hr, hs, ht, hnm] at hq
              subst hq
              simp [List.filterMap_cons, hr, hs, ht, hnm, hrec]

theorem historyEntry_of_pairAt {users : List (Option User)} {msgs : List (Option Message)}
    {q : Nat} {p : CStr × CStr} (h : pairAt users msgs q = some p) :
    historyEntry users msgs q = some (itemFrame p.1 p.2) := by
  unfold pairAt at h
  unfold historyEntry
  cases hr : readCell msgs q with
  | none => simp [hr] at h
  | some m =>
    cases hs : m.sender with
    | none => simp [hr, hs] at h
    | some sp =>
      cases ht : m.message with
      | none => simp [hr, hs, ht] at h
      | some text =>
        cases hnm : (readCell users sp).bind User.name with
        | none => simp [hr, hs, ht, hnm] at h
        | some nm =>
          simp [hr, hs, ht, hnm] at h
          subst h
          simp [hs, ht, hnm]

theorem historyEntries_of_pairAt {users : List (Option User)} {msgs : List (Option Message)}
    {L : List Nat} {P : List (CStr × CStr)} (hP : L.map (pairAt users msgs) = P.map some) :
    L.map (historyEntry users msgs) = (P.map fun p => itemFrame p.1 p.2).map some := by
  induction L generalizing P with
  | nil =>
    cases P with
    | nil => rfl
    | cons p ps => simp at hP
  | cons q rest ih =>
    cases P with
    | nil => simp at hP
    | cons p ps =>
      simp only [List.map_cons, List.cons.injEq] at hP
      simp only [List.map_cons, historyEntry_of_pairAt hP.1, ih hP.2]

theorem pairAt_grow {users : List (Option User)} {h h' : List (Option Message)} {q : Nat}
    {p : CStr × CStr} (x : Option User) (hp : pairAt users h q = some p)
    (hq : ∃ m m', readCell h q = some m ∧ readCell h' q = some m' ∧
      m'.message = m.message ∧ m'.sender = m.sender) :
    pairAt (users ++ [x]) h' q = some p := by
  obtain ⟨m, m', hm, hm', he, hs⟩ := hq
  unfold pairAt at hp ⊢
  rw [hm] at hp
  rw [hm']
  simp only [he, hs]
  cases hsd : m.sender with
  | none => simp [hsd] at hp
  | some sp =>
    cases ht : m.message with
    | none => simp [hsd, ht] at hp
    | some text =>
      simp only [hsd, ht] at hp ⊢
      cases hu : readCell users sp with
      | none => simp [hu] at hp
      | some u =>
        have hlt : sp < users.length := readCell_lt hu
        rw [readCell_append_old x hlt, hu]
        rw [hu] at hp
        exact hp

theorem client_loop_end (log : ClientLog) (rest : List ClientRecv) :
    request_all_messages_loop log (.data endFrame :: rest) = some (log, rest) := by
  have he : endFrame =
      .item { type := MESSAGE_TYPE, name := [], message := "END_OF_MESSAGES".toList } := by
    decide
  rw [he, request_all_messages_loop, if_pos rfl]

theorem client_loop_item (log : ClientLog) (ty : Int) (n t : CStr) (rest : List ClientRecv)
    {h' : List (Option Message)} {ml' : MessageList}
    (hne : t ≠ "END_OF_MESSAGES".toList)
    (happ : appendMessage
        (log.messages ++ [some { message := some t, sender := some log.users.length,
                                 next := none }])
        log.messageList (some log.messages.length) = some (h', ml')) :
    request_all_messages_loop log
        (.data (.item { type := ty, name := n, message := t }) :: rest) =
      request_all_messages_loop
        { users := log.users ++ [some { email := none, name := some n, next := none }],
          messages := h', messageList := ml' } rest := by
  rw [request_all_messages_loop, if_neg hne]
  simp [createUser, createMessage, allocCell, strdup, happ]

theorem client_loop_items (P : List (CStr × CStr))
    (hP : ∀ p ∈ P, p.2 ≠ "END_OF_MESSAGES".toList) :
    ∀ (log : ClientLog) (L : List Nat) (Q : List (CStr × CStr)) (rest : List ServerFrame),
      log.messageList.nodes log.messages = some L →
      (L.length : Int) = log.messageList.count → L.getLast? = log.messageList.last →
      L.map (pairAt log.users log.messages) = Q.map some →
      ∃ log1 L1,
        request_all_messages_loop log
            (wire ((P.map fun p => ServerFrame.item
              { type := MESSAGE_TYPE, name := p.1, message := p.2 }) ++ endFrame :: rest)) =
          some (log1, wire rest) ∧
        log1.messageList.nodes log1.messages = some L1 ∧
        L1.map (pairAt log1.users log1.messages) = (Q ++ P).map some := by
  induction P with
  | nil =>
    intro log L Q rest hn _ _ hQ
    exact ⟨log, L, client_loop_end log (wire rest), hn, by simpa using hQ⟩
  | cons p ps ih =>
    intro log L Q rest hn hc hl hQ
    have hne : p.2 ≠ "END_OF_MESSAGES".toList := hP p (List.mem_cons_self _ _)
    obtain ⟨h', ml', happ, _, hnodes, hl', hc', hnew, hold⟩ :=
      appendMessage_fresh (⟨some p.2, some log.users.length, none⟩ : Message) hn hc hl
    have hQ1 : (L ++ [log.messages.length]).map
          (pairAt (log.users ++ [some ⟨none, some p.1, none⟩]) h') =
        (Q ++ [p]).map some := by
      rw [List.map_append, List.map_append, ← hQ]
      congr 1
      · apply List.map_congr_left
        intro q hq
        have hmem : pairAt log.users log.messages q ∈ L.map (pairAt log.users log.messages) :=
          List.mem_map_of_mem _ hq
        rw [hQ] at hmem
        obtain ⟨pq, _, hpq⟩ := List.mem_map.mp hmem
        rw [pairAt_grow _ hpq.symm (hold q hq), ← hpq]
      · simp [pairAt, hnew, readCell_append_new]
    obtain ⟨log1, L1, hloop, hn1, hQ2⟩ :=
      ih (fun x hx => hP x (List.mem_cons_of_mem _ hx))
        { users := log.users ++ [some ⟨none, some p.1, none⟩], messages := h',
          messageList := ml' }
        (L ++ [log.messages.length]) (Q ++ [p]) rest hnodes
        (by simp [hc', ← hc]) (by simp [hl']) hQ1
    refine ⟨log1, L1, ?_, hn1, by simpa using hQ2⟩
    rw [← hloop]
    exact client_loop_item log MESSAGE_TYPE p.1 p.2 _ hne happ

/-- The round trip where no stored content equals the end-marker text: the server's
answer to a REQUEST_HISTORY, fed to the client's receive loop, makes the client build
a list with exactly the (sender name, content) pairs of the server's log, in order,
and the loop leaves at the server's end-of-messages frame with only the ACK unread. -/
theorem history_round_trip_without_end_text (s : Server) (c : Session)
    (f : c2s_send_message) (log : ClientLog) {M : List Nat} {P : List (CStr × CStr)}
    (hM : s.messageList.nodes s.messages = some M)
    (hP : M.map (pairAt s.users s.messages) = P.map some)
    (hshort : ∀ p ∈ P, p.1.length < BUFFER_SIZE ∧ p.2.length < BUFFER_SIZE)
    (hend : ∀ p ∈ P, p.2 ≠ "END_OF_MESSAGES".toList)
    (hreg : c.isRegistered = true) (hsend : c.socketFd.sendErr = [])
    (hf : f.type = REQUEST_ALL_MESSAGES_TYPE)
    (hlog : log.messageList = initMessageList) :
    ∃ c1 resp log1,
      loopBody s c (.frame f) = some (s, c1, .continue) ∧
      c1.socketFd.sent = c.socketFd.sent ++ resp ∧
      request_all_messages_loop log (wire resp) = some (log1, wire [ackFrame]) ∧
      s.messageList.pairs s.users s.messages = some (P.map fun p => (some p.1, some p.2)) ∧
      log1.messageList.pairs log1.users log1.messages =
        s.messageList.pairs s.users s.messages := by
  have hentries := historyEntries_of_pairAt hP
  have hitems := itemsOf_of_entries hentries
  have hok : ∀ q : Nat, q ∈ M → nodeOk s.users s.messages q := by
    intro q hq
    have hmem : historyEntry s.users s.messages q ∈ M.map (historyEntry s.users s.messages) :=
      List.mem_map_of_mem _ hq
    rw [hentries] at hmem
    obtain ⟨fr, _, hfr⟩ := List.mem_map.mp hmem
    exact nodeOk_of_historyEntry hfr.symm
  have hreq := request_history_reliable s c f hM hok hreg hsend hf
  have hframes : (P.map fun p => itemFrame p.1 p.2) =
      P.map fun p => ServerFrame.item { type := MESSAGE_TYPE, name := p.1, message := p.2 } := by
    apply List.map_congr_left
    intro p hp
    simp [itemFrame, strncpy_short (hshort p hp).1, strncpy_short (hshort p hp).2]
  have hn0 : log.messageList.nodes log.messages = some [] := by
    rw [hlog]
    simp [MessageList.nodes, initMessageList, walk_null]
  obtain ⟨log1, L1, hloop, hn1, hQ1⟩ :=
    client_loop_items P hend log [] [] [ackFrame] hn0 (by simp [hlog, initMessageList])
      (by simp [hlog, initMessageList]) (by simp)
  have hserver := pairs_of_pairAt hM hP
  have hclient := pairs_of_pairAt hn1 (by simpa using hQ1)
  refine ⟨_, itemsOf s.users s.messages M ++ [endFrame, ackFrame], log1, hreq, rfl, ?_,
    hserver, ?_⟩
  · rw [hitems, hframes]
    exact hloop
  · rw [hclient, hserver]

/-- The round trip at a concrete input: the server that holds the one message hello of
bob@example.com Bob, and a client that has nothing allocated. -/
theorem history_round_trip_without_end_text_witness :
    bobServer.messageList.nodes bobServer.messages = some [0] ∧
    [0].map (pairAt bobServer.users bobServer.messages) =
      [("bob@example.com Bob".toList, "hello".toList)].map some ∧
    ∃ c1 resp log1,
      loopBody bobServer bobSession (.frame request_frame) = some (bobServer, c1, .continue) ∧
      c1.socketFd.sent = bobSession.socketFd.sent ++ resp ∧
      request_all_messages_loop clientStart (wire resp) = some (log1, wire [ackFrame]) ∧
      bobServer.messageList.pairs bobServer.users bobServer.messages =
        some ([("bob@example.com Bob".toList, "hello".toList)].map fun p =>
          (some p.1, some p.2)) ∧
      log1.messageList.pairs log1.users log1.messages =
        bobServer.messageList.pairs bobServer.users bobServer.messages :=
  ⟨by decide, by decide,
   history_round_trip_without_end_text bobServer bobSession request_frame clientStart
     (show bobServer.messageList.nodes bobServer.messages = some [0] by decide)
     (show [0].map (pairAt bobServer.users bobServer.messages) =
        [("bob@example.com Bob".toList, "hello".toList)].map some by decide)
     (by
       intro p hp
       rw [List.mem_singleton] at hp
       subst hp
       exact ⟨by decide, by decide⟩)
     (by
       intro p hp
       rw [List.mem_singleton] at hp
       subst hp
       decide)
     (by decide) (by decide) (by decide) (by decide)⟩

/-- C5, the code at the failing input: two clients register and the first one exits,
which releases every User and leaves the message log empty. The second session is
still REGISTERED; its MESSAGE hello is accepted and acknowledged and the log counts 1
message. For the REQUEST_HISTORY that follows, the history loop reads the name of
that message's sender, a released User: the request has no defined answer, and so
not the one history item with the sender's name that the claim describes. -/
theorem history_reads_released_sender :
    (main_start.run staleSenderRun).map (fun w => w.server) = some staleServer ∧
    (main_start.run staleSenderRun).map (fun w => w.sessions.get? 1) =
      some (some staleSession) ∧
    staleServer.messageList = initMessageList ∧
    staleSession.state = .REGISTERED ∧ staleSession.socketFd.sendErr = [] ∧
    helloMessage.type = MESSAGE_TYPE ∧ helloMessage.message.length < BUFFER_SIZE ∧
    loopBody staleServer staleSession (.frame helloMessage) =
      some ({ staleServer with
                messages := [some { message := some "hello".toList, sender := some 1,
                                    next := none }],
                messageList := { first := some 0, last := some 0, count := 1 } },
            { staleSession with socketFd := { sent := [ackFrame, ackFrame], sendErr := [],
                                              closed := false } },
            .continue) ∧
    postAll staleServer [(staleSession, helloMessage)] =
      some { staleServer with
               messages := [some { message := some "hello".toList, sender := some 1,
                                   next := none }],
               messageList := { first := some 0, last := some 0, count := 1 } } ∧
    readCell staleServer.users 1 = none ∧
    loopBody
        { staleServer with
            messages := [some { message := some "hello".toList, sender := some 1,
                                next := none }],
            messageList := { first := some 0, last := some 0, count := 1 } }
        { staleSession with socketFd := { sent := [ackFrame, ackFrame], sendErr := [],
                                          closed := false } }
        (.frame request_frame) = none ∧
    (main_start.run (staleSenderRun ++ [.recv 1 (.frame helloMessage)])).map
        (fun w => w.server.messageList.count) = some 1 ∧
    main_start.run (staleSenderRun ++
        [.recv 1 (.frame helloMessage), .recv 1 (.frame request_frame)]) = none := by
  decide

end ChatServer
